import Mathlib

/-!
Verification of the template-backend repository: a CRUD service over a
single `TemplateItem` entity with a read-through listing cache.

The embedding models Python strings as lists of Unicode code points
(`PyStr := List Nat`), datetimes as a record of calendar fields with
microsecond precision, UUIDs as 128-bit naturals, and Python/JSON values
as the inductive `PyObj`.  The cache payload layer (`json.dumps` with
`default=str`, `json.loads`, the legacy `||`/`::` format) is embedded
down to the character level; the repository is embedded over a list
store, and the service functions of `TemplateService` over a state of
the store plus the key-value cache.  Fallible collaborators (the store
connection, the cache connection) are modelled by explicit failure
flags; Python exceptions are `Except` values.
-/

namespace Backend

/-! ## Python strings as code-point lists -/

/-- A Python `str`, as its sequence of Unicode code points. -/
abbrev PyStr := List Nat

/-- Embed a Lean string literal as a `PyStr`. -/
def pstr (s : String) : PyStr := s.data.map Char.toNat

/-- A well-formed Unicode string: code points below 0x110000 and not
surrogates.  Real Python strings obtained from decoded input satisfy this. -/
def wfStr (s : PyStr) : Prop := ∀ c ∈ s, c < 1114112 ∧ ¬(55296 ≤ c ∧ c ≤ 57343)

instance (s : PyStr) : Decidable (wfStr s) := by unfold wfStr; infer_instance

/-- ASCII decimal digit code point. -/
def isDigitCp (c : Nat) : Bool := 48 ≤ c && c ≤ 57

/-- Hexadecimal digit code point (either case). -/
def isHexCp (c : Nat) : Bool :=
  (48 ≤ c && c ≤ 57) || (97 ≤ c && c ≤ 102) || (65 ≤ c && c ≤ 70)

/-- Lowercase hex digit for a value below 16 (as Python formats hex). -/
def hexd (d : Nat) : Nat := if d < 10 then 48 + d else 87 + d

/-- Value of a hex digit code point. -/
def hexv (c : Nat) : Nat :=
  if 48 ≤ c ∧ c ≤ 57 then c - 48
  else if 97 ≤ c ∧ c ≤ 102 then c - 87
  else if 65 ≤ c ∧ c ≤ 70 then c - 55
  else 0

theorem hexv_hexd {d : Nat} (h : d < 16) : hexv (hexd d) = d := by
  unfold hexv hexd
  split_ifs <;> omega

theorem hexd_lt {d : Nat} (h : d < 16) : hexd d < 128 := by
  unfold hexd; split <;> omega

theorem isHexCp_hexd {d : Nat} (h : d < 16) : isHexCp (hexd d) = true := by
  unfold isHexCp hexd
  split_ifs <;> simp <;> omega

theorem hexd_ne_dash (d : Nat) : hexd d ≠ 45 := by
  unfold hexd; split <;> omega

/-! ### Fixed-width decimal and hex renderings (Python `%0Nd` / `%032x`) -/

/-- `decPad w n`: the last `w` decimal digits of `n`, zero padded,
most significant first. -/
def decPad : Nat → Nat → PyStr
  | 0, _ => []
  | w + 1, n => decPad w (n / 10) ++ [48 + n % 10]

/-- `hexPad w n`: the last `w` lowercase hex digits of `n`, zero padded. -/
def hexPad : Nat → Nat → PyStr
  | 0, _ => []
  | w + 1, n => hexPad w (n / 16) ++ [hexd (n % 16)]

theorem decPad_length (w n : Nat) : (decPad w n).length = w := by
  induction w generalizing n with
  | zero => rfl
  | succ w ih => simp [decPad, ih]

theorem hexPad_length (w n : Nat) : (hexPad w n).length = w := by
  induction w generalizing n with
  | zero => rfl
  | succ w ih => simp [hexPad, ih]

theorem decPad_digits (w n : Nat) : ∀ c ∈ decPad w n, isDigitCp c = true := by
  induction w generalizing n with
  | zero => simp [decPad]
  | succ w ih =>
    intro c hc
    simp only [decPad, List.mem_append, List.mem_singleton] at hc
    rcases hc with h | h
    · exact ih _ c h
    · subst h; simp [isDigitCp]; omega

theorem hexPad_hex (w n : Nat) : ∀ c ∈ hexPad w n, isHexCp c = true := by
  induction w generalizing n with
  | zero => simp [hexPad]
  | succ w ih =>
    intro c hc
    simp only [hexPad, List.mem_append, List.mem_singleton] at hc
    rcases hc with h | h
    · exact ih _ c h
    · subst h; exact isHexCp_hexd (Nat.mod_lt _ (by omega))

/-- Numeric value of a decimal-digit string (left fold, as Python `int`). -/
def decVal (s : PyStr) : Nat := s.foldl (fun a c => a * 10 + (c - 48)) 0

/-- Numeric value of a hex-digit string. -/
def hexVal (s : PyStr) : Nat := s.foldl (fun a c => a * 16 + hexv c) 0

theorem decVal_decPad_aux (w : Nat) :
    ∀ a n, (decPad w n).foldl (fun a c => a * 10 + (c - 48)) a = a * 10 ^ w + n % 10 ^ w := by
  induction w with
  | zero => intro a n; simp [decPad, Nat.mod_one]
  | succ w ih =>
    intro a n
    simp only [decPad, List.foldl_append, ih, List.foldl_cons, List.foldl_nil]
    have h48 : 48 + n % 10 - 48 = n % 10 := by omega
    rw [h48, pow_succ]
    have hsplit : n % (10 ^ w * 10) = n % 10 + 10 * (n / 10 % 10 ^ w) := by
      rw [Nat.mul_comm]; exact Nat.mod_mul
    rw [hsplit, ← Nat.mul_assoc]
    omega

theorem decVal_decPad {w n : Nat} (h : n < 10 ^ w) : decVal (decPad w n) = n := by
  unfold decVal
  rw [decVal_decPad_aux w 0 n, Nat.mod_eq_of_lt h, Nat.zero_mul, Nat.zero_add]

theorem hexVal_hexPad_aux (w : Nat) :
    ∀ a n, (hexPad w n).foldl (fun a c => a * 16 + hexv c) a = a * 16 ^ w + n % 16 ^ w := by
  induction w with
  | zero => intro a n; simp [hexPad, Nat.mod_one]
  | succ w ih =>
    intro a n
    simp only [hexPad, List.foldl_append, ih, List.foldl_cons, List.foldl_nil]
    rw [hexv_hexd (Nat.mod_lt _ (by omega)), pow_succ]
    have hsplit : n % (16 ^ w * 16) = n % 16 + 16 * (n / 16 % 16 ^ w) := by
      rw [Nat.mul_comm]; exact Nat.mod_mul
    rw [hsplit, ← Nat.mul_assoc]
    omega

theorem hexVal_hexPad {w n : Nat} (h : n < 16 ^ w) : hexVal (hexPad w n) = n := by
  unfold hexVal
  rw [hexVal_hexPad_aux w 0 n, Nat.mod_eq_of_lt h, Nat.zero_mul, Nat.zero_add]

/-! ### Primitive scanners shared by the datetime parser and `json.loads` -/

/-- Consume exactly `w` decimal digits, most significant first, onto
accumulator `a`. -/
def readDecN : Nat → Nat → PyStr → Option (Nat × PyStr)
  | a, 0, s => some (a, s)
  | _, _ + 1, [] => none
  | a, w + 1, c :: s => if isDigitCp c then readDecN (a * 10 + (c - 48)) w s else none

/-- Longest digit prefix and the remainder (Python regex `[0-9]*`). -/
def spanDigits : PyStr → PyStr × PyStr
  | [] => ([], [])
  | c :: s =>
    if isDigitCp c then
      let p := spanDigits s
      (c :: p.1, p.2)
    else ([], c :: s)

/-- Consume one expected code point. -/
def expectCp (c : Nat) : PyStr → Option PyStr
  | x :: r => if x = c then some r else none
  | [] => none

theorem readDecN_all : ∀ (s : PyStr) (a : Nat) (rest : PyStr),
    (∀ c ∈ s, isDigitCp c = true) →
    readDecN a s.length (s ++ rest) = some (s.foldl (fun a c => a * 10 + (c - 48)) a, rest) := by
  intro s
  induction s with
  | nil => intro a rest _; rfl
  | cons c s ih =>
    intro a rest hd
    have hc : isDigitCp c = true := hd c (by simp)
    simp only [List.length_cons, List.cons_append, readDecN, hc, if_true, List.foldl_cons]
    exact ih _ rest (fun x hx => hd x (by simp [hx]))

theorem readDecN_decPad {w n : Nat} (h : n < 10 ^ w) (rest : PyStr) :
    readDecN 0 w (decPad w n ++ rest) = some (n, rest) := by
  have hall := readDecN_all (decPad w n) 0 rest (decPad_digits w n)
  rw [decPad_length] at hall
  rw [hall]
  have : (decPad w n).foldl (fun a c => a * 10 + (c - 48)) 0 = n := decVal_decPad h
  rw [this]

theorem spanDigits_all {l : PyStr} (h : ∀ c ∈ l, isDigitCp c = true) :
    spanDigits l = (l, []) := by
  induction l with
  | nil => rfl
  | cons c s ih =>
    have hc : isDigitCp c = true := h c (by simp)
    simp only [spanDigits, hc, if_true, ih (fun x hx => h x (by simp [hx]))]

/-! ## Datetimes

`datetime.datetime` values (naive UTC, microsecond precision), their
`str()` rendering `YYYY-MM-DD HH:MM:SS[.ffffff]` (the fraction omitted when
the microsecond field is zero), and the datetime-from-string validation
pydantic applies (4-2-2 digit date, `T` or space separator, 2-2-2 time,
optional 1-6 digit fraction scaled to microseconds, with range checks). -/

structure DT where
  year : Nat
  month : Nat
  day : Nat
  hour : Nat
  minute : Nat
  second : Nat
  microsecond : Nat
deriving DecidableEq

/-- Field ranges `datetime` guarantees (day-in-month is checked no finer
than `≤ 31`, which is all the string validator needs here). -/
def DT.valid (t : DT) : Prop :=
  1 ≤ t.year ∧ t.year ≤ 9999 ∧ 1 ≤ t.month ∧ t.month ≤ 12 ∧ 1 ≤ t.day ∧ t.day ≤ 31 ∧
    t.hour ≤ 23 ∧ t.minute ≤ 59 ∧ t.second ≤ 59 ∧ t.microsecond ≤ 999999

instance (t : DT) : Decidable t.valid := by unfold DT.valid; infer_instance

/-- Mixed-radix key that orders valid datetimes chronologically. -/
def DT.key (t : DT) : Nat :=
  ((((t.year * 13 + t.month) * 32 + t.day) * 24 + t.hour) * 60 + t.minute) * 60000000 +
    t.second * 1000000 + t.microsecond

/-- `str(datetime)`: `YYYY-MM-DD HH:MM:SS`, plus `.ffffff` iff `microsecond ≠ 0`. -/
def dtStr (t : DT) : PyStr :=
  decPad 4 t.year ++ [45] ++ decPad 2 t.month ++ [45] ++ decPad 2 t.day ++ [32] ++
    decPad 2 t.hour ++ [58] ++ decPad 2 t.minute ++ [58] ++ decPad 2 t.second ++
    (if t.microsecond = 0 then [] else 46 :: decPad 6 t.microsecond)

/-- Parse the time-of-day tail `HH:MM:SS[.f{1..6}]` of a datetime string. -/
def dtParseTime (s : PyStr) : Option (Nat × Nat × Nat × Nat) :=
  match readDecN 0 2 s with
  | none => none
  | some (h, s) =>
    match expectCp 58 s with
    | none => none
    | some s =>
      match readDecN 0 2 s with
      | none => none
      | some (mi, s) =>
        match expectCp 58 s with
        | none => none
        | some s =>
          match readDecN 0 2 s with
          | none => none
          | some (sec, s) =>
            match s with
            | [] => some (h, mi, sec, 0)
            | 46 :: r =>
              match spanDigits r with
              | (ds, r2) =>
                if 1 ≤ ds.length ∧ ds.length ≤ 6 ∧ r2 = [] then
                  some (h, mi, sec, decVal ds * 10 ^ (6 - ds.length))
                else none
            | _ => none

/-- The datetime-from-string validation pydantic applies to a whole field
value (timezone suffixes, which `str()` of a naive datetime never emits,
are not modelled). -/
def dtParse (s : PyStr) : Option DT :=
  match readDecN 0 4 s with
  | none => none
  | some (y, s) =>
    match expectCp 45 s with
    | none => none
    | some s =>
      match readDecN 0 2 s with
      | none => none
      | some (mo, s) =>
        match expectCp 45 s with
        | none => none
        | some s =>
          match readDecN 0 2 s with
          | none => none
          | some (d, s) =>
            match s with
            | 32 :: r | 84 :: r =>
              match dtParseTime r with
              | none => none
              | some (h, mi, sec, us) =>
                if 1 ≤ mo ∧ mo ≤ 12 ∧ 1 ≤ d ∧ d ≤ 31 ∧ h ≤ 23 ∧ mi ≤ 59 ∧ sec ≤ 59 then
                  some ⟨y, mo, d, h, mi, sec, us⟩
                else none
            | _ => none

theorem dtParseTime_dtStr {t : DT} (h10 : t.microsecond ≤ 999999)
    (h7 : t.hour ≤ 23) (h8 : t.minute ≤ 59) (h9 : t.second ≤ 59) :
    dtParseTime (decPad 2 t.hour ++ 58 :: (decPad 2 t.minute ++ 58 :: (decPad 2 t.second ++
      (if t.microsecond = 0 then [] else 46 :: decPad 6 t.microsecond)))) =
    some (t.hour, t.minute, t.second, t.microsecond) := by
  unfold dtParseTime
  rw [readDecN_decPad (by omega)]
  simp only [expectCp, eq_self_iff_true, if_true]
  rw [readDecN_decPad (by omega)]
  simp only [expectCp, eq_self_iff_true, if_true]
  rw [readDecN_decPad (by omega)]
  by_cases hus : t.microsecond = 0
  · simp [hus]
  · simp only [if_neg hus, List.append_nil]
    rw [spanDigits_all (decPad_digits 6 t.microsecond)]
    simp only [decPad_length]
    rw [if_pos ⟨by omega, by omega, by trivial⟩]
    rw [decVal_decPad (by omega)]
    simp

theorem dtParse_dtStr {t : DT} (h : t.valid) : dtParse (dtStr t) = some t := by
  obtain ⟨h1, h2, h3, h4, h5, h6, h7, h8, h9, h10⟩ := h
  unfold dtStr dtParse
  simp only [List.append_assoc, List.singleton_append, List.cons_append, List.nil_append]
  rw [readDecN_decPad (by omega)]
  simp only [expectCp, eq_self_iff_true, if_true]
  rw [readDecN_decPad (by omega)]
  simp only [expectCp, eq_self_iff_true, if_true]
  rw [readDecN_decPad (by omega)]
  simp only [dtParseTime_dtStr h10 h7 h8 h9]
  rw [if_pos (by exact ⟨h3, h4, h5, h6, h7, h8, h9⟩)]

/-! ## UUIDs

128-bit identifiers; `str(uuid)` is the dashed 8-4-4-4-12 lowercase hex
form, and validation (python `uuid.UUID(str)`) strips dashes and reads 32
hex digits (either case; the `urn:`/brace forms are not modelled). -/

def uuidStr (n : Nat) : PyStr :=
  (hexPad 32 n).take 8 ++ [45] ++ ((hexPad 32 n).drop 8).take 4 ++ [45] ++
    ((hexPad 32 n).drop 12).take 4 ++ [45] ++ ((hexPad 32 n).drop 16).take 4 ++ [45] ++
    (hexPad 32 n).drop 20

def uuidParse (s : PyStr) : Option Nat :=
  let hx := s.filter (fun c => c ≠ 45)
  if hx.length = 32 ∧ hx.all isHexCp then some (hexVal hx) else none

theorem isHexCp_ne_dash {c : Nat} (h : isHexCp c = true) : c ≠ 45 := by
  intro hc
  subst hc
  simp [isHexCp] at h

theorem take_drop_reassemble (l : PyStr) :
    l.take 8 ++ ((l.drop 8).take 4 ++ ((l.drop 12).take 4 ++ ((l.drop 16).take 4 ++ l.drop 20))) = l := by
  have s20 : (l.drop 16).take 4 ++ l.drop 20 = l.drop 16 := by
    have e : (l.drop 16).drop 4 = l.drop 20 := by rw [List.drop_drop]
    rw [← e, List.take_append_drop]
  have s16 : (l.drop 12).take 4 ++ l.drop 16 = l.drop 12 := by
    have e : (l.drop 12).drop 4 = l.drop 16 := by rw [List.drop_drop]
    rw [← e, List.take_append_drop]
  have s12 : (l.drop 8).take 4 ++ l.drop 12 = l.drop 8 := by
    have e : (l.drop 8).drop 4 = l.drop 12 := by rw [List.drop_drop]
    rw [← e, List.take_append_drop]
  rw [s20, s16, s12, List.take_append_drop]

theorem uuidStr_filter (n : Nat) :
    (uuidStr n).filter (fun c => c ≠ 45) = hexPad 32 n := by
  have hhex := hexPad_hex 32 n
  have hseg : ∀ l : PyStr, (∀ c ∈ l, isHexCp c = true) →
      l.filter (fun c => c ≠ 45) = l := by
    intro l hl
    apply List.filter_eq_self.mpr
    intro c hc
    simp [isHexCp_ne_dash (hl c hc)]
  have hdash : List.filter (fun c => decide (c ≠ 45)) [45] = [] := rfl
  unfold uuidStr
  simp only [List.filter_append]
  rw [hseg _ (fun c hc => hhex c (List.mem_of_mem_take hc)),
      hseg _ (fun c hc => hhex c (List.mem_of_mem_drop (List.mem_of_mem_take hc))),
      hseg _ (fun c hc => hhex c (List.mem_of_mem_drop (List.mem_of_mem_take hc))),
      hseg _ (fun c hc => hhex c (List.mem_of_mem_drop (List.mem_of_mem_take hc))),
      hseg _ (fun c hc => hhex c (List.mem_of_mem_drop hc)), hdash]
  simp only [List.append_nil, List.append_assoc, List.nil_append]
  exact take_drop_reassemble (hexPad 32 n)

theorem uuidParse_uuidStr {n : Nat} (h : n < 2 ^ 128) : uuidParse (uuidStr n) = some n := by
  have h16 : n < 16 ^ 32 := by
    have he : (16 : Nat) ^ 32 = 2 ^ 128 := by
      rw [show (16 : Nat) = 2 ^ 4 from rfl, ← pow_mul]
    omega
  unfold uuidParse
  simp only [uuidStr_filter]
  rw [if_pos ⟨hexPad_length 32 n, List.all_eq_true.mpr (fun c hc => hexPad_hex 32 n c hc)⟩]
  rw [hexVal_hexPad h16]

/-! ## Python / JSON values

`PyObj` covers the Python values that flow through the cache layer: the
JSON scalars, containers, and the pre-serialization `UUID` / `datetime`
objects that `json.dumps(..., default=str)` stringifies.  Floats are kept
as their raw numeric lexeme (their numeric value is never consumed). -/

inductive PyObj where
  | pnone : PyObj
  | pbool : Bool → PyObj
  | pint : Int → PyObj
  | pfloat : PyStr → PyObj
  | pstrv : PyStr → PyObj
  | puuid : Nat → PyObj
  | pdt : DT → PyObj
  | plist : List PyObj → PyObj
  | pdict : List (PyStr × PyObj) → PyObj

/-! ### `json.dumps` (default separators `", "` / `": "`, `ensure_ascii`) -/

/-- A `\uXXXX` escape (lowercase hex), as CPython's ASCII string encoder emits. -/
def uEsc (n : Nat) : PyStr :=
  [92, 117, hexd (n / 4096 % 16), hexd (n / 256 % 16), hexd (n / 16 % 16), hexd (n % 16)]

/-- One character of a JSON string, escaped as CPython's
`encode_basestring_ascii` does: `\"`, `\\`, the short control escapes,
printable ASCII verbatim, and everything else as `\uXXXX` (a surrogate
pair for astral code points). -/
def escChar (c : Nat) : PyStr :=
  if c = 34 then [92, 34]
  else if c = 92 then [92, 92]
  else if c = 8 then [92, 98]
  else if c = 9 then [92, 116]
  else if c = 10 then [92, 110]
  else if c = 12 then [92, 102]
  else if c = 13 then [92, 114]
  else if 32 ≤ c ∧ c ≤ 126 then [c]
  else if c < 65536 then uEsc c
  else uEsc (55296 + (c - 65536) / 1024) ++ uEsc (56320 + (c - 65536) % 1024)

def escBody : PyStr → PyStr
  | [] => []
  | c :: s => escChar c ++ escBody s

/-- A JSON string literal: quote, escaped body, quote. -/
def escStr (s : PyStr) : PyStr := 34 :: (escBody s ++ [34])

mutual
/-- `json.dumps` of a value, `default=str` stringifying `UUID`/`datetime`. -/
def dumpsVal : PyObj → PyStr
  | .pnone => [110, 117, 108, 108]
  | .pbool true => [116, 114, 117, 101]
  | .pbool false => [102, 97, 108, 115, 101]
  | .pint i => (toString i).data.map Char.toNat
  | .pfloat raw => raw
  | .pstrv s => escStr s
  | .puuid n => escStr (uuidStr n)
  | .pdt t => escStr (dtStr t)
  | .plist l => 91 :: (dumpsItems l ++ [93])
  | .pdict kvs => 123 :: (dumpsMembers kvs ++ [125])
def dumpsItems : List PyObj → PyStr
  | [] => []
  | v :: vs => dumpsVal v ++ dumpsItemsSep vs
def dumpsItemsSep : List PyObj → PyStr
  | [] => []
  | v :: vs => 44 :: 32 :: (dumpsVal v ++ dumpsItemsSep vs)
def dumpsMembers : List (PyStr × PyObj) → PyStr
  | [] => []
  | (k, v) :: kvs => escStr k ++ 58 :: 32 :: (dumpsVal v ++ dumpsMembersSep kvs)
def dumpsMembersSep : List (PyStr × PyObj) → PyStr
  | [] => []
  | (k, v) :: kvs => 44 :: 32 :: (escStr k ++ 58 :: 32 :: (dumpsVal v ++ dumpsMembersSep kvs))
end

mutual
/-- The value `json.loads` recovers from `json.dumps` output: `UUID` and
`datetime` objects come back as their `str()` forms; all else round-trips. -/
def jnorm : PyObj → PyObj
  | .pnone => .pnone
  | .pbool b => .pbool b
  | .pint i => .pint i
  | .pfloat raw => .pfloat raw
  | .pstrv s => .pstrv s
  | .puuid n => .pstrv (uuidStr n)
  | .pdt t => .pstrv (dtStr t)
  | .plist l => .plist (jnormList l)
  | .pdict kvs => .pdict (jnormKVs kvs)
def jnormList : List PyObj → List PyObj
  | [] => []
  | v :: vs => jnorm v :: jnormList vs
def jnormKVs : List (PyStr × PyObj) → List (PyStr × PyObj)
  | [] => []
  | (k, v) :: kvs => (k, jnorm v) :: jnormKVs kvs
end

mutual
/-- The class of values the service actually writes to the cache (nested
dicts/lists of strings, `None`, `UUID`s and `datetime`s, with well-formed
Unicode strings and in-range timestamps): the codec round-trip is proved
on this class. -/
def dumpOk : PyObj → Prop
  | .pnone => True
  | .pbool _ => False
  | .pint _ => False
  | .pfloat _ => False
  | .pstrv s => wfStr s
  | .puuid n => n < 2 ^ 128
  | .pdt t => t.valid
  | .plist l => dumpOkList l
  | .pdict kvs => dumpOkKVs kvs
def dumpOkList : List PyObj → Prop
  | [] => True
  | v :: vs => dumpOk v ∧ dumpOkList vs
def dumpOkKVs : List (PyStr × PyObj) → Prop
  | [] => True
  | (k, v) :: kvs => wfStr k ∧ dumpOk v ∧ dumpOkKVs kvs
end

/-! ### `json.loads` (CPython's pure-python scanner) -/

def isJWs (c : Nat) : Bool := c = 32 || c = 9 || c = 10 || c = 13

def skipWs : PyStr → PyStr
  | [] => []
  | c :: r => if isJWs c then skipWs r else c :: r

def isHex4 (a b c d : Nat) : Bool := isHexCp a && isHexCp b && isHexCp c && isHexCp d

def hv4 (a b c d : Nat) : Nat := ((hexv a * 16 + hexv b) * 16 + hexv c) * 16 + hexv d

/-- A not-yet-emitted high surrogate from a `\uXXXX` escape, as a list. -/
def flushPend : Option Nat → PyStr
  | none => []
  | some hi => [hi]

/-- `py_scanstring` after the opening quote: plain characters (raw control
characters rejected), the named escapes, and `\uXXXX`.  CPython combines a
high-surrogate escape with an immediately following low-surrogate escape
into one astral code point; here the high surrogate is carried as `pend`
until the next token decides whether to combine, which computes the same
string.  A `\u` with fewer than four hex digits, or non-hex digits, or an
unknown escape, is an error. -/
def scanStrA : Option Nat → PyStr → Option (PyStr × PyStr)
  | pend, 34 :: rest => some (flushPend pend, rest)
  | pend, 92 :: 117 :: a :: b :: c :: d :: r =>
    if isHex4 a b c d then
      match pend with
      | some hi =>
        if 56320 ≤ hv4 a b c d ∧ hv4 a b c d ≤ 57343 then
          (scanStrA none r).map (fun p =>
            ((65536 + (hi - 55296) * 1024 + (hv4 a b c d - 56320)) :: p.1, p.2))
        else if 55296 ≤ hv4 a b c d ∧ hv4 a b c d ≤ 56319 then
          (scanStrA (some (hv4 a b c d)) r).map (fun p => (hi :: p.1, p.2))
        else (scanStrA none r).map (fun p => (hi :: hv4 a b c d :: p.1, p.2))
      | none =>
        if 55296 ≤ hv4 a b c d ∧ hv4 a b c d ≤ 56319 then
          scanStrA (some (hv4 a b c d)) r
        else (scanStrA none r).map (fun p => (hv4 a b c d :: p.1, p.2))
    else none
  | pend, 92 :: e :: r =>
    if e = 34 then (scanStrA none r).map (fun p => (flushPend pend ++ 34 :: p.1, p.2))
    else if e = 92 then (scanStrA none r).map (fun p => (flushPend pend ++ 92 :: p.1, p.2))
    else if e = 47 then (scanStrA none r).map (fun p => (flushPend pend ++ 47 :: p.1, p.2))
    else if e = 98 then (scanStrA none r).map (fun p => (flushPend pend ++ 8 :: p.1, p.2))
    else if e = 102 then (scanStrA none r).map (fun p => (flushPend pend ++ 12 :: p.1, p.2))
    else if e = 110 then (scanStrA none r).map (fun p => (flushPend pend ++ 10 :: p.1, p.2))
    else if e = 114 then (scanStrA none r).map (fun p => (flushPend pend ++ 13 :: p.1, p.2))
    else if e = 116 then (scanStrA none r).map (fun p => (flushPend pend ++ 9 :: p.1, p.2))
    else none
  | pend, c :: rest =>
    if c = 92 then none
    else if c < 32 then none
    else (scanStrA none rest).map (fun p => (flushPend pend ++ c :: p.1, p.2))
  | _, [] => none

def scanStr (s : PyStr) : Option (PyStr × PyStr) := scanStrA none s

/-- The integer part `(0|[1-9][0-9]*)` of the number regex; returns its
digits. -/
def scanUInt : PyStr → Option (PyStr × PyStr)
  | [] => none
  | c :: r =>
    if c = 48 then some ([48], r)
    else if 49 ≤ c ∧ c ≤ 57 then
      match spanDigits r with
      | (ds, r2) => some (c :: ds, r2)
    else none

/-- The optional fraction `(\.[0-9]+)?`: consumed lexeme (empty if absent). -/
def scanFrac : PyStr → PyStr × PyStr
  | 46 :: r =>
    (match spanDigits r with
     | ([], _) => ([], 46 :: r)
     | (ds, r2) => (46 :: ds, r2))
  | s => ([], s)

/-- The optional exponent `([eE][-+]?[0-9]+)?`: consumed lexeme. -/
def scanExp : PyStr → PyStr × PyStr
  | [] => ([], [])
  | c :: r =>
    if c = 101 ∨ c = 69 then
      match r with
      | 43 :: r2 =>
        (match spanDigits r2 with
         | ([], _) => ([], c :: r)
         | (ds, r3) => (c :: 43 :: ds, r3))
      | 45 :: r2 =>
        (match spanDigits r2 with
         | ([], _) => ([], c :: r)
         | (ds, r3) => (c :: 45 :: ds, r3))
      | _ =>
        (match spanDigits r with
         | ([], _) => ([], c :: r)
         | (ds, r3) => (c :: ds, r3))
    else ([], c :: r)

/-- A matched number becomes an `int` when it has no fraction/exponent,
else a `float` (kept as its lexeme). -/
def scanNumTail (neg : Bool) (ds : PyStr) (r : PyStr) : Option (PyObj × PyStr) :=
  match scanFrac r with
  | (fr, r2) =>
    match scanExp r2 with
    | (ex, r3) =>
      if fr = [] ∧ ex = [] then
        some (.pint (if neg then -(decVal ds : Int) else (decVal ds : Int)), r)
      else
        some (.pfloat ((if neg then [45] else []) ++ ds ++ fr ++ ex), r3)

def scanNum (s : PyStr) : Option (PyObj × PyStr) :=
  match s with
  | 45 :: r =>
    (match scanUInt r with
     | none => none
     | some (ds, r2) => scanNumTail true ds r2)
  | _ =>
    (match scanUInt s with
     | none => none
     | some (ds, r2) => scanNumTail false ds r2)

mutual
/-- CPython's `_scan_once`: dispatch on the first character (no leading
whitespace skip; containers skip whitespace at the documented points).
`fuel` bounds the recursion; `jsonLoads` supplies enough for any input. -/
def parseVal : Nat → PyStr → Option (PyObj × PyStr)
  | 0, _ => none
  | fuel + 1, s =>
    match s with
    | [] => none
    | 34 :: r => (scanStr r).map (fun p => (.pstrv p.1, p.2))
    | 123 :: r =>
      (match skipWs r with
       | [] => none
       | c :: r2 =>
         if c = 125 then some (.pdict [], r2)
         else (parseMembers fuel (c :: r2)).map (fun p => (.pdict p.1, p.2)))
    | 91 :: r =>
      (match skipWs r with
       | [] => none
       | c :: r2 =>
         if c = 93 then some (.plist [], r2)
         else (parseItems fuel (c :: r2)).map (fun p => (.plist p.1, p.2)))
    | 116 :: 114 :: 117 :: 101 :: r => some (.pbool true, r)
    | 102 :: 97 :: 108 :: 115 :: 101 :: r => some (.pbool false, r)
    | 110 :: 117 :: 108 :: 108 :: r => some (.pnone, r)
    | 78 :: 97 :: 78 :: r => some (.pfloat [78, 97, 78], r)
    | 73 :: 110 :: 102 :: 105 :: 110 :: 105 :: 116 :: 121 :: r =>
      some (.pfloat [73, 110, 102, 105, 110, 105, 116, 121], r)
    | 45 :: 73 :: 110 :: 102 :: 105 :: 110 :: 105 :: 116 :: 121 :: r =>
      some (.pfloat [45, 73, 110, 102, 105, 110, 105, 116, 121], r)
    | s => scanNum s
def parseItems : Nat → PyStr → Option (List PyObj × PyStr)
  | 0, _ => none
  | fuel + 1, s =>
    match parseVal fuel s with
    | none => none
    | some (v, r) =>
      match skipWs r with
      | 44 :: r2 =>
        (match parseItems fuel (skipWs r2) with
         | none => none
         | some (vs, r3) => some (v :: vs, r3))
      | 93 :: r2 => some ([v], r2)
      | _ => none
def parseMembers : Nat → PyStr → Option (List (PyStr × PyObj) × PyStr)
  | 0, _ => none
  | fuel + 1, s =>
    match s with
    | 34 :: r =>
      (match scanStr r with
       | none => none
       | some (key, r1) =>
         match skipWs r1 with
         | 58 :: r2 =>
           (match parseVal fuel (skipWs r2) with
            | none => none
            | some (v, r3) =>
              match skipWs r3 with
              | 44 :: r4 =>
                (match parseMembers fuel (skipWs r4) with
                 | none => none
                 | some (ms, r5) => some ((key, v) :: ms, r5))
              | 125 :: r4 => some ([(key, v)], r4)
              | _ => none)
         | _ => none)
    | _ => none
end

/-- `json.loads`: leading whitespace, one value, trailing whitespace only. -/
def jsonLoads (s : PyStr) : Option PyObj :=
  match parseVal (s.length + 1) (skipWs s) with
  | none => none
  | some (v, r) => if skipWs r = [] then some v else none

/-! ### String-codec round trip: `scanStr` inverts `escBody` -/

theorem hv4_uesc {m : Nat} (hm : m < 65536) :
    hv4 (hexd (m / 4096 % 16)) (hexd (m / 256 % 16)) (hexd (m / 16 % 16)) (hexd (m % 16)) = m := by
  unfold hv4
  rw [hexv_hexd (by omega), hexv_hexd (by omega), hexv_hexd (by omega), hexv_hexd (by omega)]
  omega

theorem isHex4_uesc (m : Nat) :
    isHex4 (hexd (m / 4096 % 16)) (hexd (m / 256 % 16)) (hexd (m / 16 % 16)) (hexd (m % 16))
      = true := by
  unfold isHex4
  rw [isHexCp_hexd (by omega), isHexCp_hexd (by omega), isHexCp_hexd (by omega),
    isHexCp_hexd (by omega)]
  rfl

theorem scanStrA_uesc_lone {m : Nat} (hm : m < 65536) (hns : ¬(55296 ≤ m ∧ m ≤ 56319))
    (r : PyStr) :
    scanStrA none (uEsc m ++ r) = (scanStrA none r).map (fun p => (m :: p.1, p.2)) := by
  unfold uEsc
  simp only [List.cons_append, List.nil_append, scanStrA, isHex4_uesc, if_true, hv4_uesc hm]
  simp [hns]

theorem scanStrA_uesc_high {hi : Nat} (hh : 55296 ≤ hi ∧ hi ≤ 56319) (r : PyStr) :
    scanStrA none (uEsc hi ++ r) = scanStrA (some hi) r := by
  unfold uEsc
  have hm : hi < 65536 := by omega
  simp only [List.cons_append, List.nil_append, scanStrA, isHex4_uesc, if_true, hv4_uesc hm]
  simp [hh]

theorem scanStrA_uesc_low {hi lo : Nat} (hl : 56320 ≤ lo ∧ lo ≤ 57343) (r : PyStr) :
    scanStrA (some hi) (uEsc lo ++ r) =
      (scanStrA none r).map (fun p => ((65536 + (hi - 55296) * 1024 + (lo - 56320)) :: p.1, p.2)) := by
  unfold uEsc
  have hm : lo < 65536 := by omega
  simp only [List.cons_append, List.nil_append, scanStrA, isHex4_uesc, if_true, hv4_uesc hm]
  simp [hl]

theorem scanStrA_plain (pend : Option Nat) {c : Nat} (h34 : c ≠ 34) (h92 : c ≠ 92)
    (hge : 32 ≤ c) (rest : PyStr) :
    scanStrA pend (c :: rest) =
      (scanStrA none rest).map (fun p => (flushPend pend ++ c :: p.1, p.2)) := by
  rw [scanStrA.eq_def]
  split
  · simp_all
  · simp_all
  · simp_all
  · rename_i heq
    injection heq with e1 e2
    subst e1
    subst e2
    rw [if_neg h92, if_neg (by omega)]
  · simp_all

theorem scanStrA_escChar {c : Nat} (hwf : c < 1114112 ∧ ¬(55296 ≤ c ∧ c ≤ 57343))
    (r : PyStr) :
    scanStrA none (escChar c ++ r) = (scanStrA none r).map (fun p => (c :: p.1, p.2)) := by
  obtain ⟨hlt, hsur⟩ := hwf
  unfold escChar
  by_cases h34 : c = 34
  · subst h34; simp [scanStrA, flushPend]
  · rw [if_neg h34]
    by_cases h92 : c = 92
    · subst h92; simp [scanStrA, flushPend]
    · rw [if_neg h92]
      by_cases h8 : c = 8
      · subst h8; simp [scanStrA, flushPend]
      · rw [if_neg h8]
        by_cases h9 : c = 9
        · subst h9; simp [scanStrA, flushPend]
        · rw [if_neg h9]
          by_cases h10 : c = 10
          · subst h10; simp [scanStrA, flushPend]
          · rw [if_neg h10]
            by_cases h12 : c = 12
            · subst h12; simp [scanStrA, flushPend]
            · rw [if_neg h12]
              by_cases h13 : c = 13
              · subst h13; simp [scanStrA, flushPend]
              · rw [if_neg h13]
                by_cases hpr : 32 ≤ c ∧ c ≤ 126
                · rw [if_pos hpr]
                  simp only [List.cons_append, List.nil_append]
                  rw [scanStrA_plain none h34 h92 hpr.1]
                  simp [flushPend]
                · rw [if_neg hpr]
                  by_cases hbmp : c < 65536
                  · rw [if_pos hbmp]
                    exact scanStrA_uesc_lone hbmp (by omega) r
                  · rw [if_neg hbmp]
                    simp only [List.append_assoc]
                    rw [scanStrA_uesc_high (by omega), scanStrA_uesc_low (by omega)]
                    have harith : 65536 + (55296 + (c - 65536) / 1024 - 55296) * 1024 +
                        (56320 + (c - 65536) % 1024 - 56320) = c := by
                      have := Nat.div_add_mod (c - 65536) 1024
                      omega
                    rw [harith]

theorem scanStr_escBody {s : PyStr} (hwf : wfStr s) (rest : PyStr) :
    scanStrA none (escBody s ++ 34 :: rest) = some (s, rest) := by
  induction s with
  | nil => simp [escBody, scanStrA, flushPend]
  | cons c s ih =>
    have hc := hwf c (by simp)
    have hs : wfStr s := fun x hx => hwf x (by simp [hx])
    simp only [escBody, List.append_assoc]
    rw [scanStrA_escChar hc, ih hs]
    rfl

/-! ### Value-codec round trip: `parseVal` inverts `dumpsVal` -/

theorem wfStr_of_lt128 {s : PyStr} (h : ∀ c ∈ s, c < 128) : wfStr s := by
  intro c hc
  have := h c hc
  omega

theorem isHexCp_lt128 {c : Nat} (h : isHexCp c = true) : c < 128 := by
  simp only [isHexCp, Bool.or_eq_true, Bool.and_eq_true, decide_eq_true_eq] at h
  omega

theorem isDigitCp_lt128 {c : Nat} (h : isDigitCp c = true) : c < 128 := by
  simp only [isDigitCp, Bool.and_eq_true, decide_eq_true_eq] at h
  omega

theorem lt128_append {a b : PyStr} (ha : ∀ c ∈ a, c < 128) (hb : ∀ c ∈ b, c < 128) :
    ∀ c ∈ a ++ b, c < 128 := by
  intro c hc
  rcases List.mem_append.mp hc with h | h
  exacts [ha c h, hb c h]

theorem lt128_decPad (w n : Nat) : ∀ c ∈ decPad w n, c < 128 :=
  fun c hc => isDigitCp_lt128 (decPad_digits w n c hc)

theorem lt128_single {x : Nat} (hx : x < 128) : ∀ c ∈ [x], c < 128 := by
  intro c hc
  simp only [List.mem_singleton] at hc
  omega

theorem wfStr_uuidStr (n : Nat) : wfStr (uuidStr n) := by
  apply wfStr_of_lt128
  have hhex : ∀ c ∈ hexPad 32 n, c < 128 :=
    fun c hc => isHexCp_lt128 (hexPad_hex 32 n c hc)
  have htk : ∀ m, ∀ c ∈ (hexPad 32 n).take m, c < 128 :=
    fun m c hc => hhex c (List.mem_of_mem_take hc)
  have hdr : ∀ m, ∀ c ∈ (hexPad 32 n).drop m, c < 128 :=
    fun m c hc => hhex c (List.mem_of_mem_drop hc)
  have hdt : ∀ m m2, ∀ c ∈ ((hexPad 32 n).drop m).take m2, c < 128 :=
    fun m m2 c hc => hdr m c (List.mem_of_mem_take hc)
  unfold uuidStr
  exact lt128_append (lt128_append (lt128_append (lt128_append (lt128_append (lt128_append
    (lt128_append (lt128_append (htk 8) (lt128_single (by omega))) (hdt 8 4))
    (lt128_single (by omega))) (hdt 12 4)) (lt128_single (by omega))) (hdt 16 4))
    (lt128_single (by omega))) (hdr 20)

theorem wfStr_dtStr (t : DT) : wfStr (dtStr t) := by
  apply wfStr_of_lt128
  have hus : ∀ c ∈ (if t.microsecond = 0 then ([] : PyStr) else 46 :: decPad 6 t.microsecond),
      c < 128 := by
    split
    · simp
    · intro c hc
      rcases List.mem_cons.mp hc with h | h
      · omega
      · exact lt128_decPad 6 t.microsecond c h
  unfold dtStr
  exact lt128_append (lt128_append (lt128_append (lt128_append (lt128_append (lt128_append
    (lt128_append (lt128_append (lt128_append (lt128_append (lt128_append
    (lt128_decPad 4 t.year) (lt128_single (by omega))) (lt128_decPad 2 t.month))
    (lt128_single (by omega))) (lt128_decPad 2 t.day)) (lt128_single (by omega)))
    (lt128_decPad 2 t.hour)) (lt128_single (by omega))) (lt128_decPad 2 t.minute))
    (lt128_single (by omega))) (lt128_decPad 2 t.second)) hus

theorem dumpsVal_head {v : PyObj} (h : dumpOk v) :
    ∃ c t, dumpsVal v = c :: t ∧ isJWs c = false ∧ c ≠ 93 ∧ c ≠ 125 ∧ c ≠ 44 := by
  cases v with
  | pnone => exact ⟨110, _, rfl, by decide, by decide, by decide, by decide⟩
  | pbool b => simp [dumpOk] at h
  | pint i => simp [dumpOk] at h
  | pfloat f => simp [dumpOk] at h
  | pstrv s => exact ⟨34, _, rfl, by decide, by decide, by decide, by decide⟩
  | puuid n => exact ⟨34, _, rfl, by decide, by decide, by decide, by decide⟩
  | pdt t => exact ⟨34, _, rfl, by decide, by decide, by decide, by decide⟩
  | plist l => exact ⟨91, _, rfl, by decide, by decide, by decide, by decide⟩
  | pdict kvs => exact ⟨123, _, rfl, by decide, by decide, by decide, by decide⟩

theorem skipWs_dumpsVal {v : PyObj} (h : dumpOk v) (x : PyStr) :
    skipWs (dumpsVal v ++ x) = dumpsVal v ++ x := by
  obtain ⟨c, t, hd, hws, _, _, _⟩ := dumpsVal_head h
  rw [hd, List.cons_append]
  simp [skipWs, hws]

set_option maxHeartbeats 1000000 in
theorem parseVal_arr_step (f : Nat) (v : PyObj) (vs : List PyObj) (rest : PyStr)
    (hok : dumpOk v) :
    parseVal (f + 1) (91 :: (dumpsItems (v :: vs) ++ 93 :: rest)) =
      (parseItems f (dumpsItems (v :: vs) ++ 93 :: rest)).map (fun p => (.plist p.1, p.2)) := by
  obtain ⟨c, t, hd, hws, h93, h125, h44⟩ := dumpsVal_head hok
  have hr : dumpsItems (v :: vs) ++ 93 :: rest = c :: (t ++ (dumpsItemsSep vs ++ 93 :: rest)) := by
    simp [dumpsItems, hd, List.append_assoc]
  simp only [parseVal]
  rw [hr]
  simp only [skipWs, hws, Bool.false_eq_true, if_false]
  rw [if_neg h93]

theorem parseVal_obj_step (f : Nat) (k : PyStr) (v : PyObj) (kvs : List (PyStr × PyObj))
    (rest : PyStr) :
    parseVal (f + 1) (123 :: (dumpsMembers ((k, v) :: kvs) ++ 125 :: rest)) =
      (parseMembers f (dumpsMembers ((k, v) :: kvs) ++ 125 :: rest)).map
        (fun p => (.pdict p.1, p.2)) := by
  have hr : dumpsMembers ((k, v) :: kvs) ++ 125 :: rest =
      34 :: ((escBody k ++ [34]) ++ (58 :: 32 :: (dumpsVal v ++ dumpsMembersSep kvs) ++ 125 :: rest)) := by
    simp [dumpsMembers, escStr, List.append_assoc]
  simp only [parseVal]
  rw [hr]
  simp [skipWs, isJWs, List.append_assoc]

mutual
theorem rt_val : ∀ (v : PyObj) (fuel : Nat) (rest : PyStr), dumpOk v →
    (dumpsVal v).length < fuel →
    parseVal fuel (dumpsVal v ++ rest) = some (jnorm v, rest)
  | _, 0, _, _, hf => absurd hf (by omega)
  | .pnone, fuel + 1, rest, _, _ => by
    simp [dumpsVal, parseVal, jnorm]
  | .pbool b, _ + 1, _, hok, _ => by simp [dumpOk] at hok
  | .pint i, _ + 1, _, hok, _ => by simp [dumpOk] at hok
  | .pfloat f, _ + 1, _, hok, _ => by simp [dumpOk] at hok
  | .pstrv s, fuel + 1, rest, hok, _ => by
    have hwf : wfStr s := hok
    have hr : dumpsVal (.pstrv s) ++ rest = 34 :: (escBody s ++ 34 :: rest) := by
      simp [dumpsVal, escStr]
    rw [hr]
    simp only [parseVal, scanStr, scanStr_escBody hwf]
    rfl
  | .puuid n, fuel + 1, rest, hok, _ => by
    have hr : dumpsVal (.puuid n) ++ rest = 34 :: (escBody (uuidStr n) ++ 34 :: rest) := by
      simp [dumpsVal, escStr]
    rw [hr]
    simp only [parseVal, scanStr, scanStr_escBody (wfStr_uuidStr n)]
    rfl
  | .pdt t, fuel + 1, rest, hok, _ => by
    have hr : dumpsVal (.pdt t) ++ rest = 34 :: (escBody (dtStr t) ++ 34 :: rest) := by
      simp [dumpsVal, escStr]
    rw [hr]
    simp only [parseVal, scanStr, scanStr_escBody (wfStr_dtStr t)]
    rfl
  | .plist [], fuel + 1, rest, _, _ => by
    simp [dumpsVal, dumpsItems, parseVal, skipWs, isJWs, jnorm, jnormList]
  | .plist (v :: vs), fuel + 1, rest, hok, hf => by
    have h12 : dumpOk v ∧ dumpOkList vs := hok
    have hlen : (dumpsItems (v :: vs)).length + 1 < fuel := by
      simp only [dumpsVal, List.length_cons, List.length_append, List.length_singleton] at hf
      omega
    have hr : dumpsVal (.plist (v :: vs)) ++ rest =
        91 :: (dumpsItems (v :: vs) ++ 93 :: rest) := by
      simp [dumpsVal, List.append_assoc]
    rw [hr, parseVal_arr_step fuel v vs rest h12.1,
      rt_items v vs fuel rest h12.1 h12.2 hlen]
    simp [jnorm]
  | .pdict [], fuel + 1, rest, _, _ => by
    simp [dumpsVal, dumpsMembers, parseVal, skipWs, isJWs, jnorm, jnormKVs]
  | .pdict ((k, v) :: kvs), fuel + 1, rest, hok, hf => by
    have h12 : wfStr k ∧ dumpOk v ∧ dumpOkKVs kvs := hok
    have hlen : (dumpsMembers ((k, v) :: kvs)).length + 1 < fuel := by
      simp only [dumpsVal, List.length_cons, List.length_append, List.length_singleton] at hf
      omega
    have hr : dumpsVal (.pdict ((k, v) :: kvs)) ++ rest =
        123 :: (dumpsMembers ((k, v) :: kvs) ++ 125 :: rest) := by
      simp [dumpsVal, List.append_assoc]
    rw [hr, parseVal_obj_step fuel k v kvs rest,
      rt_members k v kvs fuel rest h12.1 h12.2.1 h12.2.2 hlen]
    simp [jnorm]
termination_by v _ _ _ _ => sizeOf v

theorem rt_items : ∀ (v : PyObj) (vs : List PyObj) (fuel : Nat) (rest : PyStr),
    dumpOk v → dumpOkList vs → (dumpsItems (v :: vs)).length + 1 < fuel →
    parseItems fuel (dumpsItems (v :: vs) ++ 93 :: rest) = some (jnormList (v :: vs), rest)
  | _, _, 0, _, _, _, hf => absurd hf (by omega)
  | v, [], fuel + 1, rest, hokv, _, hf => by
    have hr : dumpsItems [v] ++ 93 :: rest = dumpsVal v ++ 93 :: rest := by
      simp [dumpsItems, dumpsItemsSep]
    have hb : (dumpsVal v).length < fuel := by
      simp only [dumpsItems, dumpsItemsSep, List.append_nil, List.length_append] at hf
      omega
    simp only [parseItems]
    rw [hr, rt_val v fuel (93 :: rest) hokv hb]
    simp [skipWs, isJWs, jnormList]
  | v, w :: ws, fuel + 1, rest, hokv, hokvs, hf => by
    have h12 : dumpOk w ∧ dumpOkList ws := hokvs
    have hr : dumpsItems (v :: w :: ws) ++ 93 :: rest =
        dumpsVal v ++ (44 :: 32 :: (dumpsItems (w :: ws) ++ 93 :: rest)) := by
      simp [dumpsItems, dumpsItemsSep, List.append_assoc]
    have hlv : (dumpsVal v).length < fuel := by
      simp only [dumpsItems, dumpsItemsSep, List.length_append, List.length_cons] at hf
      omega
    have hlw : (dumpsItems (w :: ws)).length + 1 < fuel := by
      simp only [dumpsItems, dumpsItemsSep, List.length_append, List.length_cons] at hf ⊢
      omega
    have hskip : skipWs (dumpsItems (w :: ws) ++ 93 :: rest) =
        dumpsItems (w :: ws) ++ 93 :: rest := by
      have he : dumpsItems (w :: ws) ++ 93 :: rest =
          dumpsVal w ++ (dumpsItemsSep ws ++ 93 :: rest) := by
        simp [dumpsItems, List.append_assoc]
      rw [he, skipWs_dumpsVal h12.1]
    simp only [parseItems]
    rw [hr, rt_val v fuel _ hokv hlv]
    simp [skipWs, isJWs, hskip, rt_items w ws fuel rest h12.1 h12.2 hlw, jnormList]
termination_by v vs _ _ _ _ _ => sizeOf v + sizeOf vs

theorem rt_members : ∀ (k : PyStr) (v : PyObj) (kvs : List (PyStr × PyObj)) (fuel : Nat)
    (rest : PyStr),
    wfStr k → dumpOk v → dumpOkKVs kvs → (dumpsMembers ((k, v) :: kvs)).length + 1 < fuel →
    parseMembers fuel (dumpsMembers ((k, v) :: kvs) ++ 125 :: rest) =
      some (jnormKVs ((k, v) :: kvs), rest)
  | _, _, _, 0, _, _, _, _, hf => absurd hf (by omega)
  | k, v, [], fuel + 1, rest, hwk, hokv, _, hf => by
    have hr : dumpsMembers [(k, v)] ++ 125 :: rest =
        34 :: (escBody k ++ 34 :: (58 :: 32 :: (dumpsVal v ++ 125 :: rest))) := by
      simp [dumpsMembers, dumpsMembersSep, escStr, List.append_assoc]
    have hb : (dumpsVal v).length < fuel := by
      simp only [dumpsMembers, dumpsMembersSep, escStr, List.append_nil, List.length_append,
        List.length_cons] at hf
      omega
    simp only [parseMembers]
    rw [hr]
    simp [scanStr, scanStr_escBody hwk, skipWs, isJWs, skipWs_dumpsVal hokv,
      rt_val v fuel _ hokv hb, jnormKVs]
  | k, v, (k2, v2) :: kvs, fuel + 1, rest, hwk, hokv, hokvs, hf => by
    have h123 : wfStr k2 ∧ dumpOk v2 ∧ dumpOkKVs kvs := hokvs
    have hr : dumpsMembers ((k, v) :: (k2, v2) :: kvs) ++ 125 :: rest =
        34 :: (escBody k ++ 34 :: (58 :: 32 :: (dumpsVal v ++
          (44 :: 32 :: (dumpsMembers ((k2, v2) :: kvs) ++ 125 :: rest))))) := by
      simp [dumpsMembers, dumpsMembersSep, escStr, List.append_assoc]
    have hbv : (dumpsVal v).length < fuel := by
      simp only [dumpsMembers, dumpsMembersSep, escStr, List.length_append,
        List.length_cons] at hf
      omega
    have hbm : (dumpsMembers ((k2, v2) :: kvs)).length + 1 < fuel := by
      simp only [dumpsMembers, dumpsMembersSep, escStr, List.length_append,
        List.length_cons] at hf ⊢
      omega
    have hskip : skipWs (dumpsMembers ((k2, v2) :: kvs) ++ 125 :: rest) =
        dumpsMembers ((k2, v2) :: kvs) ++ 125 :: rest := by
      have he : dumpsMembers ((k2, v2) :: kvs) ++ 125 :: rest =
          34 :: ((escBody k2 ++ [34]) ++ (58 :: 32 :: (dumpsVal v2 ++ dumpsMembersSep kvs) ++
            125 :: rest)) := by
        simp [dumpsMembers, escStr, List.append_assoc]
      rw [he]
      simp [skipWs, isJWs]
    simp only [parseMembers]
    rw [hr]
    simp [scanStr, scanStr_escBody hwk, skipWs, isJWs, skipWs_dumpsVal hokv,
      rt_val v fuel _ hokv hbv, hskip, jnormKVs]
    rw [show (34 : Nat) :: (escBody k2 ++ 34 :: 58 :: 32 :: (dumpsVal v2 ++
          (dumpsMembersSep kvs ++ 125 :: rest))) =
        dumpsMembers ((k2, v2) :: kvs) ++ 125 :: rest from by
      simp [dumpsMembers, escStr, List.append_assoc]]
    rw [rt_members k2 v2 kvs fuel rest h123.1 h123.2.1 h123.2.2 hbm]
    simp [jnormKVs]
termination_by k v kvs _ _ _ _ _ _ => sizeOf k + sizeOf v + sizeOf kvs
end

/-- `json.loads` inverts `json.dumps` on the values the service caches. -/
theorem jsonLoads_dumpsVal {v : PyObj} (h : dumpOk v) :
    jsonLoads (dumpsVal v) = some (jnorm v) := by
  unfold jsonLoads
  have hs : skipWs (dumpsVal v) = dumpsVal v := by
    have := skipWs_dumpsVal h []
    simpa using this
  have hv : parseVal ((dumpsVal v).length + 1) (dumpsVal v ++ []) = some (jnorm v, []) :=
    rt_val v ((dumpsVal v).length + 1) [] h (by omega)
  simp only [List.append_nil] at hv
  rw [hs, hv]
  rfl

/-! ## The template data model

`src/app/data/schemas/models.py` (`TemplateItem`, `TemplateStatus`) and
`src/app/data/DTO/template_dto.py`.  `TemplateItem` and `TemplateResponse`
carry the same six fields and `TemplateResponse.model_validate(entity)`
(`from_attributes`) is a field-for-field copy, so one structure embeds
both. -/

inductive TemplateStatus where
  | DRAFT : TemplateStatus
  | PUBLISHED : TemplateStatus
deriving DecidableEq

/-- The payload of the `str`-enum member (`TemplateStatus.DRAFT` is the
string `"DRAFT"`), which is what `json.dumps` serializes. -/
def statusStr : TemplateStatus → PyStr
  | .DRAFT => pstr "DRAFT"
  | .PUBLISHED => pstr "PUBLISHED"

structure Template where
  id : Nat
  title : PyStr
  body : Option PyStr
  status : TemplateStatus
  created_at : DT
  updated_at : DT
deriving DecidableEq

/-- Invariants every real record satisfies: a 128-bit id, well-formed
Unicode text fields, in-range timestamps. -/
def Template.wf (t : Template) : Prop :=
  t.id < 2 ^ 128 ∧ wfStr t.title ∧ (∀ b, t.body = some b → wfStr b) ∧
    t.created_at.valid ∧ t.updated_at.valid

instance (t : Template) : Decidable t.wf := by unfold Template.wf; infer_instance

/-- The field-name strings `"id"`, `"title"`, `"body"`, `"status"`,
`"created_at"`, `"updated_at"` as code-point lists. -/
def kId : PyStr := [105, 100]

def kTitle : PyStr := [116, 105, 116, 108, 101]

def kBody : PyStr := [98, 111, 100, 121]

def kStatus : PyStr := [115, 116, 97, 116, 117, 115]

def kCreated : PyStr := [99, 114, 101, 97, 116, 101, 100, 95, 97, 116]

def kUpdated : PyStr := [117, 112, 100, 97, 116, 101, 100, 95, 97, 116]

/-- `TemplateResponse.model_dump()`: the field dict in declaration order,
`UUID`/`datetime` values unconverted (`json.dumps(default=str)`
stringifies them on write). -/
def model_dump (t : Template) : PyObj :=
  .pdict [(kId, .puuid t.id), (kTitle, .pstrv t.title),
    (kBody, match t.body with | none => .pnone | some b => .pstrv b),
    (kStatus, .pstrv (statusStr t.status)),
    (kCreated, .pdt t.created_at), (kUpdated, .pdt t.updated_at)]

/-- Python dict lookup over insertion-ordered pairs: a duplicated key
takes the last value. -/
def dictGet (kvs : List (PyStr × PyObj)) (k : PyStr) : Option PyObj :=
  match kvs with
  | [] => none
  | (k2, v) :: rest =>
    match dictGet rest k with
    | some v2 => some v2
    | none => if k2 = k then some v else none

/-- Pydantic `UUID` field validation: a `UUID` instance, or a string
through `uuid.UUID(...)`. -/
def vUuid : PyObj → Option Nat
  | .pstrv s => uuidParse s
  | .puuid n => some n
  | _ => none

/-- Pydantic `datetime` field validation: a `datetime` instance, or a
string through the datetime parser. -/
def vDt : PyObj → Option DT
  | .pstrv s => dtParse s
  | .pdt t => some t
  | _ => none

/-- Pydantic `TemplateStatus` field validation: the member value strings. -/
def vStatus : PyObj → Option TemplateStatus
  | .pstrv s =>
    if s = pstr "DRAFT" then some .DRAFT
    else if s = pstr "PUBLISHED" then some .PUBLISHED
    else none
  | _ => none

/-- `TemplateResponse.model_validate` on a mapping (the cache-read path):
all six fields required, `body` nullable, extra keys ignored; anything
else fails validation. -/
def model_validate (o : PyObj) : Option Template :=
  match o with
  | .pdict kvs =>
    match dictGet kvs kId with
    | none => none
    | some idv =>
      match vUuid idv with
      | none => none
      | some idn =>
        match dictGet kvs kTitle with
        | some (.pstrv title) =>
          match dictGet kvs kBody with
          | some bodyv =>
            match (match bodyv with
                   | .pnone => some none
                   | .pstrv b => some (some b)
                   | _ => none) with
            | none => none
            | some body =>
              match dictGet kvs kStatus with
              | none => none
              | some stv =>
                match vStatus stv with
                | none => none
                | some st =>
                  match dictGet kvs kCreated with
                  | none => none
                  | some cav =>
                    match vDt cav with
                    | none => none
                    | some ca =>
                      match dictGet kvs kUpdated with
                      | none => none
                      | some uav =>
                        match vDt uav with
                        | none => none
                        | some ua => some ⟨idn, title, body, st, ca, ua⟩
          | none => none
        | _ => none
  | _ => none

theorem dumpOk_model_dump {t : Template} (h : t.wf) : dumpOk (model_dump t) := by
  obtain ⟨h1, h2, h3, h4, h5⟩ := h
  refine ⟨by decide, h1, by decide, h2, by decide, ?_, by decide, ?_, by decide, h4, by decide,
    h5, trivial⟩
  · cases hb : t.body with
    | none => exact trivial
    | some b => exact h3 b hb
  · cases t.status with
    | DRAFT => exact (by decide : wfStr (pstr "DRAFT"))
    | PUBLISHED => exact (by decide : wfStr (pstr "PUBLISHED"))

theorem dictGet_t_id (a b c d e f : PyObj) :
    dictGet [(kId, a), (kTitle, b), (kBody, c), (kStatus, d), (kCreated, e), (kUpdated, f)]
      kId = some a := rfl

theorem dictGet_t_title (a b c d e f : PyObj) :
    dictGet [(kId, a), (kTitle, b), (kBody, c), (kStatus, d), (kCreated, e), (kUpdated, f)]
      kTitle = some b := rfl

theorem dictGet_t_body (a b c d e f : PyObj) :
    dictGet [(kId, a), (kTitle, b), (kBody, c), (kStatus, d), (kCreated, e), (kUpdated, f)]
      kBody = some c := rfl

theorem dictGet_t_status (a b c d e f : PyObj) :
    dictGet [(kId, a), (kTitle, b), (kBody, c), (kStatus, d), (kCreated, e), (kUpdated, f)]
      kStatus = some d := rfl

theorem dictGet_t_created (a b c d e f : PyObj) :
    dictGet [(kId, a), (kTitle, b), (kBody, c), (kStatus, d), (kCreated, e), (kUpdated, f)]
      kCreated = some e := rfl

theorem dictGet_t_updated (a b c d e f : PyObj) :
    dictGet [(kId, a), (kTitle, b), (kBody, c), (kStatus, d), (kCreated, e), (kUpdated, f)]
      kUpdated = some f := rfl

theorem model_validate_jnorm_dump {t : Template} (h : t.wf) :
    model_validate (jnorm (model_dump t)) = some t := by
  obtain ⟨h1, h2, h3, h4, h5⟩ := h
  obtain ⟨tid, ttitle, tbody, tstatus, tca, tua⟩ := t
  simp only at h1 h2 h3 h4 h5
  unfold model_dump
  simp only [jnorm, jnormKVs, model_validate, dictGet_t_id, dictGet_t_title, dictGet_t_body,
    dictGet_t_status, dictGet_t_created, dictGet_t_updated]
  simp only [vUuid, uuidParse_uuidStr h1, vDt, dtParse_dtStr h4, dtParse_dtStr h5]
  cases tbody with
  | none =>
    cases tstatus with
    | DRAFT => simp [vStatus, statusStr, jnorm]
    | PUBLISHED =>
      simp [vStatus, statusStr, jnorm, show pstr "PUBLISHED" ≠ pstr "DRAFT" from by decide]
  | some b =>
    cases tstatus with
    | DRAFT => simp [vStatus, statusStr, jnorm]
    | PUBLISHED =>
      simp [vStatus, statusStr, jnorm, show pstr "PUBLISHED" ≠ pstr "DRAFT" from by decide]

/-! ## Python `int(str)` and the legacy cache format

`src/app/services/cache_service.py` lines 22-34: the `||`-separated,
`::`-delimited fallback format read (never written) for backward
compatibility. -/

/-- Python `str.strip()` whitespace (ASCII part; exotic Unicode spaces
are not modelled). -/
def isPyWs (c : Nat) : Bool := c = 32 || c = 9 || c = 10 || c = 11 || c = 12 || c = 13

def stripPyWs (s : PyStr) : PyStr :=
  ((s.dropWhile isPyWs).reverse.dropWhile isPyWs).reverse

/-- Digits of a Python decimal int literal: single underscores allowed
between digits only. -/
def pyIntAux (a : Nat) : PyStr → Option Nat
  | [] => some a
  | 95 :: c :: r => if isDigitCp c then pyIntAux (a * 10 + (c - 48)) r else none
  | [95] => none
  | c :: r => if isDigitCp c then pyIntAux (a * 10 + (c - 48)) r else none

def pyIntDigits : PyStr → Option Nat
  | [] => none
  | c :: r => if isDigitCp c then pyIntAux (c - 48) r else none

/-- Python `int(str)`: surrounding whitespace, an optional sign, then a
nonempty digit run (underscores between digits); anything else raises
`ValueError` (= `none`). -/
def pyInt (s : PyStr) : Option Int :=
  match stripPyWs s with
  | 43 :: r => (pyIntDigits r).map (fun n => (n : Int))
  | 45 :: r => (pyIntDigits r).map (fun n => -(n : Int))
  | t => (pyIntDigits t).map (fun n => (n : Int))

/-- Python `str.split(sep)` for a two-character separator `[a, b]`. -/
def split2 (a b : Nat) : PyStr → List PyStr
  | [] => [[]]
  | [x] => [[x]]
  | x :: y :: rest =>
    if x = a ∧ y = b then [] :: split2 a b rest
    else
      match split2 a b (y :: rest) with
      | [] => [[x]]
      | s :: ss => (x :: s) :: ss

/-- Python `str.split(sep, maxsplit)` for a two-character separator. -/
def split2N (a b : Nat) : Nat → PyStr → List PyStr
  | 0, s => [s]
  | _ + 1, [] => [[]]
  | _ + 1, [x] => [[x]]
  | n + 1, x :: y :: rest =>
    if x = a ∧ y = b then [] :: split2N a b n rest
    else
      match split2N a b (n + 1) (y :: rest) with
      | [] => [[x]]
      | s :: ss => (x :: s) :: ss

/-- One legacy segment: `parts = s.split("::", 3)`; needs `parts[0..3]`
(`IndexError` otherwise) with `int(parts[0])` (`ValueError` on failure,
e.g. a UUID string); builds the legacy item dict. -/
def legacySeg (seg : PyStr) : Option PyObj :=
  match split2N 58 58 3 seg with
  | [p0, p1, p2, p3] =>
    (pyInt p0).map (fun n => PyObj.pdict [(kId, .pint n), (kTitle, .pstrv p1),
      (kStatus, .pstrv p2), (kCreated, .pstrv p3)])
  | _ => none

/-- The legacy-format loop: split on `"||"`, skip empty segments, decode
each; any segment failure raises, caught by the enclosing handler
(= `none` overall). -/
def legacySegsAll : List PyStr → Option (List PyObj)
  | [] => some []
  | seg :: rest =>
    match legacySeg seg with
    | none => none
    | some item =>
      match legacySegsAll rest with
      | none => none
      | some items => some (item :: items)

def legacyDecode (v : PyStr) : Option PyObj :=
  (legacySegsAll ((split2 124 124 v).filter (fun s => s ≠ []))).map PyObj.plist

/-! ## The cache client and `CacheService`

`src/app/services/cache_service.py`.  The redis client itself
(`app/core/caching.py` is not in `src/`) is modelled from the spec §4.3:
`get` returns absent on miss, `set` overwrites unconditionally, `delete`
removes if present and is a no-op otherwise.  A connection failure in any
redis call raises; the `connFail` flag selects that behaviour, and the
`except` clauses of `CacheService` absorb it. -/

/-- Modelled from the spec: the key-value store behind `redis_client()`
(`app/core/caching.py`, not under `src/`), per §4.3 of the spec.  TTL
expiry is not modelled (no claim depends on the 30s window). -/
abbrev Redis := List (String × PyStr)

/-- Modelled from the spec: `redis.get` — the stored value, absent on miss. -/
def rget (r : Redis) (k : String) : Option PyStr :=
  (r.find? (fun p => p.1 == k)).map (fun p => p.2)

/-- Modelled from the spec: `redis.set` — unconditional overwrite. -/
def rset (r : Redis) (k : String) (v : PyStr) : Redis :=
  (k, v) :: r.filter (fun p => p.1 != k)

/-- Modelled from the spec: `redis.delete` — removes the key if present,
no-op otherwise. -/
def rdel (r : Redis) (k : String) : Redis := r.filter (fun p => p.1 != k)

namespace CacheService

/-- `get_templates_cache`: on any raise (connection failure, or the
legacy loop's `int`/index errors) returns `None`; an empty or absent
value returns `None`; valid JSON wins over the legacy fallback. -/
def get_templates_cache (redis : Redis) (key : String) (connFail : Bool) : Option PyObj :=
  if connFail then none
  else
    match rget redis key with
    | none => none
    | some v =>
      if v = [] then none
      else
        match jsonLoads v with
        | some j => some j
        | none => legacyDecode v

/-- `set_templates_cache`: `json.dumps(templates, default=str)` then
`redis.set`; any failure is swallowed, leaving the store untouched. -/
def set_templates_cache (redis : Redis) (key : String) (templates : List PyObj)
    (connFail : Bool) : Redis :=
  if connFail then redis else rset redis key (dumpsVal (.plist templates))

/-- `invalidate_cache`: `redis.delete`; any failure is swallowed. -/
def invalidate_cache (redis : Redis) (key : String) (connFail : Bool) : Redis :=
  if connFail then redis else rdel redis key

end CacheService

/-! ## The repository layer

`src/app/data/repositories/base_repository.py` over a list store.  The
database session (`app/core/database.py` is not in `src/`) is modelled
from the spec §4.1 as ordered record storage: `create` appends,
`get`/`update` address rows by primary key, `delete` removes matching
rows; a failed commit leaves the store unchanged. -/

namespace BaseRepository

/-- `create`: insert and commit; returns the persisted entity. -/
def create (db : List Template) (entity : Template) : List Template := db ++ [entity]

/-- `get_by_id`: point lookup by primary key, absent if not found. -/
def get_by_id (db : List Template) (entity_id : Nat) : Option Template :=
  db.find? (fun t => t.id == entity_id)

/-- `get_all(limit, offset)`: `SELECT ... LIMIT limit OFFSET offset`, in
storage order; the limit is applied as given (no clamping here — the
HTTP router validates its own bounds). -/
def get_all (db : List Template) (limit offset : Nat) : List Template :=
  (db.drop offset).take limit

/-- The repository defaults `limit=100, offset=0` from the signature
`get_all(self, limit: int = 100, offset: int = 0)`. -/
def get_all_default_limit : Nat := 100

def get_all_default_offset : Nat := 0

/-- `update_data` as built by `update_template`:
`update_request.model_dump(exclude_none=True)` (so a field explicitly set
to null is indistinguishable from an absent one) plus the fresh
`updated_at`. -/
structure UpdateData where
  title : Option PyStr
  body : Option PyStr
  status : Option TemplateStatus
  updated_at : DT
deriving DecidableEq

/-- The `setattr` loop of `update_by_id`: each present field overwrites;
absent fields keep their stored values; `updated_at` is always present. -/
def applyUpdate (t : Template) (u : UpdateData) : Template :=
  { t with
    title := u.title.getD t.title,
    body := match u.body with | some b => some b | none => t.body,
    status := u.status.getD t.status,
    updated_at := u.updated_at }

/-- `update_by_id`: `session.get` by primary key — absent id raises
`ValueError` (`none` here, the commit never happens); otherwise the
setattr loop runs and the row is committed in place. -/
def update_by_id (db : List Template) (entity_id : Nat) (u : UpdateData) :
    Option (Template × List Template) :=
  match get_by_id db entity_id with
  | none => none
  | some existing =>
    let upd := applyUpdate existing u
    some (upd, db.map (fun t => if t.id = entity_id then upd else t))

/-- `delete_by_id`: `DELETE WHERE id = entity_id`; returns
`rowcount > 0` and the remaining rows. -/
def delete_by_id (db : List Template) (entity_id : Nat) : Bool × List Template :=
  (db.any (fun t => t.id == entity_id), db.filter (fun t => t.id != entity_id))

end BaseRepository

/-! ## The service layer (`src/app/services/template_service.py`)

State is the store plus the cache.  Store failures (`storeFail` /
`dbFail`) model the session raising on the repository call: the
operation's exception propagates (`Except.error`) and neither store nor
cache changes.  Cache failures (`getFail` / `setFail` / `delFail`) model
the redis client raising inside the corresponding `CacheService` call,
which that call absorbs. -/

structure St where
  db : List Template
  redis : Redis
deriving DecidableEq

inductive Err where
  | storeFailure : Err
  | validationError : Err
  | typeError : Err
deriving DecidableEq

structure TemplateListResponse where
  source : String
  templates : List Template
  total : Nat
  limit : Nat
  offset : Nat
deriving DecidableEq

structure TemplateCreateRequest where
  title : PyStr
  body : Option PyStr
  status : TemplateStatus
deriving DecidableEq

structure TemplateUpdateRequest where
  title : Option PyStr
  body : Option PyStr
  status : Option TemplateStatus
deriving DecidableEq

structure TemplateCreateResponse where
  message : String
  template : Template
deriving DecidableEq

/-- The fixed listing cache key. -/
def cacheKey : String := "test:template"

/-- Python truthiness of the cached value (`if cached_templates:`).
Floats keep only enough structure for the cases that can occur; no claim
evaluates a float's truthiness. -/
def pyTruthy : PyObj → Bool
  | .pnone => false
  | .pbool b => b
  | .pint n => n != 0
  | .pfloat raw =>
    (raw.any (fun c => (49 ≤ c && c ≤ 57) || c = 78 || c = 73))
  | .pstrv s => !s.isEmpty
  | .puuid _ => true
  | .pdt _ => true
  | .plist l => !l.isEmpty
  | .pdict kvs => !kvs.isEmpty

/-- The list comprehension
`[TemplateResponse.model_validate(t) for t in cached_templates]` over a
list: the first failing element raises `ValidationError` (`none`). -/
def validateAll : List PyObj → Option (List Template)
  | [] => some []
  | x :: l =>
    match model_validate x with
    | none => none
    | some t =>
      match validateAll l with
      | none => none
      | some ts => some (t :: ts)

/-- `[TemplateResponse.model_validate(t) for t in cached_templates]`:
iterating a list validates its elements (first failure raises
`ValidationError`); iterating a dict yields its keys and a str its
characters, which fail validation; non-iterables raise `TypeError`. -/
def serviceDeserialize : PyObj → Except Err (List Template)
  | .plist l =>
    match validateAll l with
    | some ts => .ok ts
    | none => .error .validationError
  | .pdict kvs => if kvs.isEmpty then .ok [] else .error .validationError
  | .pstrv s => if s = [] then .ok [] else .error .validationError
  | _ => .error .typeError

namespace TemplateService

/-- `get_all_templates` (lines 23-57): cache probe under `use_cache`, a
truthy cached value served as `"redis"` with the caller's `limit`/`offset`
echoed; otherwise the store page is fetched, written back to the cache
under `use_cache`, and served as `"db"`. -/
def get_all_templates (s : St) (use_cache : Bool) (limit offset : Nat)
    (getFail setFail dbFail : Bool) : Except Err TemplateListResponse × St :=
  let dbPath : Except Err TemplateListResponse × St :=
    if dbFail then (.error .storeFailure, s)
    else
      let page := BaseRepository.get_all s.db limit offset
      let redis2 :=
        if use_cache then
          CacheService.set_templates_cache s.redis cacheKey (page.map model_dump) setFail
        else s.redis
      (.ok ⟨"db", page, page.length, limit, offset⟩, ⟨s.db, redis2⟩)
  if use_cache then
    match CacheService.get_templates_cache s.redis cacheKey getFail with
    | some cached =>
      if pyTruthy cached then
        match serviceDeserialize cached with
        | .ok ts => (.ok ⟨"redis", ts, ts.length, limit, offset⟩, s)
        | .error e => (.error e, s)
      else dbPath
    | none => dbPath
  else dbPath

/-- `get_template_by_id` (lines 59-62). -/
def get_template_by_id (s : St) (template_id : Nat) (storeFail : Bool) :
    Except Err (Option Template) × St :=
  if storeFail then (.error .storeFailure, s)
  else (.ok (BaseRepository.get_by_id s.db template_id), s)

/-- `create_template` (lines 64-83): build the entity (fresh id `newId`
from `uuid4`, the two `utcnow()` default-factory reads `t1`/`t2`),
persist it, then invalidate the listing key unconditionally. -/
def create_template (s : St) (req : TemplateCreateRequest) (newId : Nat) (t1 t2 : DT)
    (storeFail delFail : Bool) : Except Err TemplateCreateResponse × St :=
  let entity : Template := ⟨newId, req.title, req.body, req.status, t1, t2⟩
  if storeFail then (.error .storeFailure, s)
  else
    let db2 := BaseRepository.create s.db entity
    let redis2 := CacheService.invalidate_cache s.redis cacheKey delFail
    (.ok ⟨"Template created successfully", entity⟩, ⟨db2, redis2⟩)

/-- `update_template` (lines 85-107): an all-absent request short-circuits
to a read; otherwise `updated_at := utcnow()` (`now`) is added, the row is
updated (`ValueError` → `None`, nothing touched), and on success the
listing key is invalidated. -/
def update_template (s : St) (template_id : Nat) (req : TemplateUpdateRequest) (now : DT)
    (storeFail delFail : Bool) : Except Err (Option Template) × St :=
  if req.title = none ∧ req.body = none ∧ req.status = none then
    get_template_by_id s template_id storeFail
  else if storeFail then (.error .storeFailure, s)
  else
    match BaseRepository.update_by_id s.db template_id ⟨req.title, req.body, req.status, now⟩ with
    | none => (.ok none, s)
    | some (upd, db2) =>
      let redis2 := CacheService.invalidate_cache s.redis cacheKey delFail
      (.ok (some upd), ⟨db2, redis2⟩)

/-- `delete_template` (lines 109-117): delete by id; only a positive
rowcount invalidates the listing key. -/
def delete_template (s : St) (template_id : Nat) (storeFail delFail : Bool) :
    Except Err Bool × St :=
  if storeFail then (.error .storeFailure, s)
  else
    let r := BaseRepository.delete_by_id s.db template_id
    let redis2 := if r.1 then CacheService.invalidate_cache s.redis cacheKey delFail else s.redis
    (.ok r.1, ⟨r.2, redis2⟩)

end TemplateService

/-! ## The HTTP router (`src/app/api/routers/template_router.py`) -/

inductive HttpErr where
  | unprocessable : HttpErr
  | serverError : HttpErr
deriving DecidableEq

/-- `GET /test/template`: FastAPI validates `limit ∈ [1, 500]` and
`offset ≥ 0`, rejecting out-of-range values with a 422 validation error
(no clamping); in range, the service is called with the values as given,
and service exceptions map to a 500. -/
def get_templates (s : St) (limit offset : Int) (use_cache : Bool)
    (getFail setFail dbFail : Bool) : Except HttpErr TemplateListResponse × St :=
  if limit < 1 ∨ 500 < limit ∨ offset < 0 then (.error .unprocessable, s)
  else
    match TemplateService.get_all_templates s use_cache limit.toNat offset.toNat
        getFail setFail dbFail with
    | (.ok r, s2) => (.ok r, s2)
    | (.error _, s2) => (.error .serverError, s2)

/-! ## Cache-store lemmas -/

theorem rget_rdel (r : Redis) (k : String) : rget (rdel r k) k = none := by
  unfold rget rdel
  induction r with
  | nil => rfl
  | cons p r ih =>
    simp only [List.filter_cons]
    split
    · rename_i hne
      simp only [List.find?]
      rw [show (p.1 == k) = false from by
        simpa [bne] using hne]
      exact ih
    · exact ih

theorem rget_rset (r : Redis) (k : String) (v : PyStr) : rget (rset r k v) k = some v := by
  unfold rget rset
  simp [List.find?]

theorem jsonLoads_nil : jsonLoads [] = none := rfl

theorem validateAll_length {l : List PyObj} :
    ∀ {ts : List Template}, validateAll l = some ts → ts.length = l.length := by
  induction l with
  | nil => intro ts h; simp [validateAll] at h; simp [← h]
  | cons x l ih =>
    intro ts h
    unfold validateAll at h
    match hx : model_validate x with
    | none => rw [hx] at h; simp at h
    | some t =>
      rw [hx] at h
      match hl : validateAll l with
      | none => rw [hl] at h; simp at h
      | some ts2 =>
        rw [hl] at h
        simp only [Option.some.injEq] at h
        subst h
        simp [ih hl]

/-! ## Claim verification -/

/-- C9: an update request in which no field is set (all of title, body,
status absent) performs no store mutation and no cache invalidation — the
state, including the stored record's `updated_at` and the cache entry, is
returned unchanged — and the result is the current record, or absent when
the id does not exist.  Quantifying over `delFail` shows no cache call is
even made. -/
theorem c9_empty_update_is_pure_read (s : St) (template_id : Nat) (now : DT) (delFail : Bool) :
    TemplateService.update_template s template_id ⟨none, none, none⟩ now false delFail =
      (.ok (BaseRepository.get_by_id s.db template_id), s) := by
  unfold TemplateService.update_template TemplateService.get_template_by_id
  simp

/-- C2: a failure raised inside any cache operation never propagates to
and never fails the surrounding read or mutation.  Each `CacheService`
operation absorbs its client failure (read → `None` miss, write /
invalidate → store untouched); a read-side cache error makes
`get_all_templates` return exactly what a cache-free read returns; a
write-side error leaves the cache untouched and the result unchanged; an
invalidate-side error leaves the mutation's result and store effect
unchanged, with the cache untouched. -/
theorem c2_cache_errors_never_propagate :
    (∀ redis key, CacheService.get_templates_cache redis key true = none) ∧
    (∀ redis key ts, CacheService.set_templates_cache redis key ts true = redis) ∧
    (∀ redis key, CacheService.invalidate_cache redis key true = redis) ∧
    (∀ s uc limit offset sf df,
      (TemplateService.get_all_templates s uc limit offset true sf df).1 =
        (TemplateService.get_all_templates s false limit offset false false df).1) ∧
    (∀ s uc limit offset gf df,
      (TemplateService.get_all_templates s uc limit offset gf true df).1 =
        (TemplateService.get_all_templates s uc limit offset gf false df).1 ∧
      (TemplateService.get_all_templates s uc limit offset gf true df).2.redis = s.redis ∧
      (TemplateService.get_all_templates s uc limit offset gf true df).2.db = s.db) ∧
    (∀ s req newId t1 t2 sf,
      (TemplateService.create_template s req newId t1 t2 sf true).1 =
        (TemplateService.create_template s req newId t1 t2 sf false).1 ∧
      (TemplateService.create_template s req newId t1 t2 sf true).2.db =
        (TemplateService.create_template s req newId t1 t2 sf false).2.db ∧
      (TemplateService.create_template s req newId t1 t2 sf true).2.redis = s.redis) ∧
    (∀ s template_id req now sf,
      (TemplateService.update_template s template_id req now sf true).1 =
        (TemplateService.update_template s template_id req now sf false).1 ∧
      (TemplateService.update_template s template_id req now sf true).2.db =
        (TemplateService.update_template s template_id req now sf false).2.db ∧
      (TemplateService.update_template s template_id req now sf true).2.redis = s.redis) ∧
    (∀ s template_id sf,
      (TemplateService.delete_template s template_id sf true).1 =
        (TemplateService.delete_template s template_id sf false).1 ∧
      (TemplateService.delete_template s template_id sf true).2.db =
        (TemplateService.delete_template s template_id sf false).2.db ∧
      (TemplateService.delete_template s template_id sf true).2.redis = s.redis) := by
  refine ⟨fun redis key => rfl, fun redis key ts => rfl, fun redis key => rfl,
    ?_, ?_, ?_, ?_, ?_⟩
  · intro s uc limit offset sf df
    unfold TemplateService.get_all_templates
    cases uc with
    | false => cases df <;> simp
    | true =>
      simp only [CacheService.get_templates_cache, if_true]
      cases df <;> cases sf <;> simp
  · intro s uc limit offset gf df
    unfold TemplateService.get_all_templates
    cases uc with
    | false => cases df <;> simp [CacheService.set_templates_cache]
    | true =>
      match hg : CacheService.get_templates_cache s.redis cacheKey gf with
      | none => cases df <;> simp [hg, CacheService.set_templates_cache]
      | some cached =>
        by_cases ht : pyTruthy cached
        · match hd : serviceDeserialize cached with
          | .ok ts => simp [hg, ht, hd]
          | .error e => simp [hg, ht, hd]
        · cases df <;> simp [hg, ht, CacheService.set_templates_cache]
  · intro s req newId t1 t2 sf
    cases sf <;>
      simp [TemplateService.create_template, CacheService.invalidate_cache]
  · intro s template_id req now sf
    unfold TemplateService.update_template TemplateService.get_template_by_id
    by_cases he : req.title = none ∧ req.body = none ∧ req.status = none
    · cases sf <;> simp [he]
    · simp only [if_neg he]
      cases sf with
      | true => simp
      | false =>
        match hu : BaseRepository.update_by_id s.db template_id
            ⟨req.title, req.body, req.status, now⟩ with
        | none => simp [hu]
        | some p => simp [hu, CacheService.invalidate_cache]
  · intro s template_id sf
    cases sf with
    | true => simp [TemplateService.delete_template]
    | false =>
      by_cases hf : (BaseRepository.delete_by_id s.db template_id).1 <;>
        simp [TemplateService.delete_template, hf, CacheService.invalidate_cache]

/-- C1: every mutation that successfully commits against the store
deletes the listing cache key `"test:template"` before returning (the
resulting state has no entry under the key, so a subsequent cache-enabled
read is a miss and serves the store's current state, final conjunct);
a store-level failure, a not-found update, or a delete that removes
nothing returns with the cache — and the store — untouched. -/
theorem c1_mutations_invalidate_listing_cache :
    (∀ s req newId t1 t2,
      rget (TemplateService.create_template s req newId t1 t2 false false).2.redis
        cacheKey = none) ∧
    (∀ s req newId t1 t2 df,
      TemplateService.create_template s req newId t1 t2 true df = (.error .storeFailure, s)) ∧
    (∀ s template_id req now rec,
      BaseRepository.get_by_id s.db template_id = some rec →
      ¬(req.title = none ∧ req.body = none ∧ req.status = none) →
      rget (TemplateService.update_template s template_id req now false false).2.redis
        cacheKey = none) ∧
    (∀ s template_id req now df,
      ¬(req.title = none ∧ req.body = none ∧ req.status = none) →
      TemplateService.update_template s template_id req now true df = (.error .storeFailure, s)) ∧
    (∀ s template_id req now df,
      ¬(req.title = none ∧ req.body = none ∧ req.status = none) →
      BaseRepository.get_by_id s.db template_id = none →
      TemplateService.update_template s template_id req now false df = (.ok none, s)) ∧
    (∀ s template_id,
      s.db.any (fun t => t.id == template_id) = true →
      rget (TemplateService.delete_template s template_id false false).2.redis cacheKey = none) ∧
    (∀ s template_id df,
      s.db.any (fun t => t.id == template_id) = false →
      (TemplateService.delete_template s template_id false df).2.redis = s.redis ∧
      (TemplateService.delete_template s template_id false df).1 = .ok false) ∧
    (∀ s template_id df,
      TemplateService.delete_template s template_id true df = (.error .storeFailure, s)) ∧
    (∀ s2 limit offset,
      rget s2.redis cacheKey = none →
      (TemplateService.get_all_templates s2 true limit offset false false false).1 =
        .ok ⟨"db", BaseRepository.get_all s2.db limit offset,
          (BaseRepository.get_all s2.db limit offset).length, limit, offset⟩) := by
  refine ⟨?_, ?_, ?_, ?_, ?_, ?_, ?_, ?_, ?_⟩
  · intro s req newId t1 t2
    simp [TemplateService.create_template, CacheService.invalidate_cache, rget_rdel]
  · intro s req newId t1 t2 df
    simp [TemplateService.create_template]
  · intro s template_id req now rec hrec hne
    unfold TemplateService.update_template
    rw [if_neg hne]
    simp only [Bool.false_eq_true, if_false]
    unfold BaseRepository.update_by_id
    rw [hrec]
    simp [CacheService.invalidate_cache, rget_rdel]
  · intro s template_id req now df hne
    unfold TemplateService.update_template
    rw [if_neg hne]
    simp
  · intro s template_id req now df hne hmiss
    unfold TemplateService.update_template
    rw [if_neg hne]
    simp only [Bool.false_eq_true, if_false]
    unfold BaseRepository.update_by_id
    rw [hmiss]
  · intro s template_id hfound
    unfold TemplateService.delete_template BaseRepository.delete_by_id
    simp [hfound, CacheService.invalidate_cache, rget_rdel]
  · intro s template_id df hmiss
    unfold TemplateService.delete_template BaseRepository.delete_by_id
    simp [hmiss]
  · intro s template_id df
    simp [TemplateService.delete_template]
  · intro s2 limit offset hmiss
    unfold TemplateService.get_all_templates CacheService.get_templates_cache
    rw [hmiss]
    simp

/-! ### Concrete sample data for witnesses -/

def dt0 : DT := ⟨2023, 1, 1, 0, 0, 0, 0⟩

def dt1 : DT := ⟨2023, 1, 1, 0, 0, 0, 1⟩

def dt2 : DT := ⟨2024, 6, 15, 12, 30, 45, 123456⟩

def tA : Template := ⟨1, pstr "A", none, .DRAFT, dt0, dt0⟩

def tB : Template := ⟨2, pstr "B", some (pstr "body text"), .PUBLISHED, dt0, dt2⟩

def st0 : St := ⟨[], []⟩

def stA : St := ⟨[tA], [(cacheKey, pstr "stale")]⟩

theorem c1_witness :
    BaseRepository.get_by_id stA.db 1 = some tA ∧
    rget (TemplateService.update_template stA 1 ⟨some (pstr "B"), none, none⟩ dt2
      false false).2.redis cacheKey = none := by
  have h1 : BaseRepository.get_by_id stA.db 1 = some tA := by rfl
  have h2 : ¬((⟨some (pstr "B"), none, none⟩ : TemplateUpdateRequest).title = none ∧
      (⟨some (pstr "B"), none, none⟩ : TemplateUpdateRequest).body = none ∧
      (⟨some (pstr "B"), none, none⟩ : TemplateUpdateRequest).status = none) := by
    simp
  exact ⟨h1,
    c1_mutations_invalidate_listing_cache.2.2.1 stA 1 ⟨some (pstr "B"), none, none⟩ dt2 tA h1 h2⟩

/-- C3: a cache-enabled listing read whose cached value is present,
non-empty and deserializable is served from the cache: provenance
`"redis"`, the whole cached sequence unpaginated, `total` the number of
cached items, and `limit`/`offset` echoing the caller's requested values
(the state is untouched; the result does not depend on the requested
window beyond that echo). -/
theorem c3_cache_hit_served_whole (s : St) (v : PyStr) (lst : List PyObj)
    (ts : List Template) (limit offset : Nat)
    (hget : rget s.redis cacheKey = some v)
    (hjson : jsonLoads v = some (.plist lst))
    (hne : lst ≠ [])
    (hval : validateAll lst = some ts) :
    TemplateService.get_all_templates s true limit offset false false false =
      (.ok ⟨"redis", ts, ts.length, limit, offset⟩, s) ∧
    ts.length = lst.length := by
  have hvne : v ≠ [] := by
    intro hv
    rw [hv, jsonLoads_nil] at hjson
    exact Option.noConfusion hjson
  refine ⟨?_, validateAll_length hval⟩
  unfold TemplateService.get_all_templates CacheService.get_templates_cache
  rw [hget]
  simp only [if_false, Bool.false_eq_true, if_neg hvne, hjson, if_true]
  have htr : pyTruthy (.plist lst) = true := by
    simp [pyTruthy, hne]
  rw [htr]
  simp only [serviceDeserialize, hval, if_true]

set_option maxRecDepth 100000 in
theorem c3_witness :
    rget (St.redis ⟨[], [(cacheKey, dumpsVal (.plist [model_dump tA]))]⟩) cacheKey =
      some (dumpsVal (.plist [model_dump tA])) ∧
    jsonLoads (dumpsVal (.plist [model_dump tA])) =
      some (.plist [jnorm (model_dump tA)]) ∧
    validateAll [jnorm (model_dump tA)] = some [tA] ∧
    TemplateService.get_all_templates ⟨[], [(cacheKey, dumpsVal (.plist [model_dump tA]))]⟩
        true 100 0 false false false =
      (.ok ⟨"redis", [tA], 1, 100, 0⟩, ⟨[], [(cacheKey, dumpsVal (.plist [model_dump tA]))]⟩) := by
  have h1 : rget (St.redis ⟨[], [(cacheKey, dumpsVal (.plist [model_dump tA]))]⟩) cacheKey =
      some (dumpsVal (.plist [model_dump tA])) := rfl
  have h2 : jsonLoads (dumpsVal (.plist [model_dump tA])) =
      some (.plist [jnorm (model_dump tA)]) := by rfl
  have h3 : validateAll [jnorm (model_dump tA)] = some [tA] := by rfl
  have h4 := (c3_cache_hit_served_whole ⟨[], [(cacheKey, dumpsVal (.plist [model_dump tA]))]⟩
    (dumpsVal (.plist [model_dump tA])) [jnorm (model_dump tA)] [tA] 100 0 h1 h2
    (by simp) h3).1
  exact ⟨h1, h2, h3, h4⟩

/-- States over an empty store whose listing cache entry, if present,
decodes to the empty JSON list. -/
def emptyInv (s : St) : Prop :=
  s.db = [] ∧ ∀ v, rget s.redis cacheKey = some v → jsonLoads v = some (.plist [])

/-- Iterated cache-enabled listing reads (state evolution only). -/
def readIter (limit offset : Nat) : Nat → St → St
  | 0, s => s
  | n + 1, s =>
    readIter limit offset n
      (TemplateService.get_all_templates s true limit offset false false false).2

/-- C8: a cached value that is an empty list is treated as a cache miss:
the read is answered from the store with provenance `"db"`, and the
freshly loaded (possibly empty) page is rewritten to the cache; as a
consequence (conjuncts two and three) a listing over an empty store is
never served with provenance `"redis"`, no matter how many cache-enabled
reads precede it. -/
theorem c8_empty_cached_list_is_miss :
    (∀ s v limit offset,
      rget s.redis cacheKey = some v →
      jsonLoads v = some (.plist []) →
      TemplateService.get_all_templates s true limit offset false false false =
        (.ok ⟨"db", BaseRepository.get_all s.db limit offset,
            (BaseRepository.get_all s.db limit offset).length, limit, offset⟩,
          ⟨s.db, rset s.redis cacheKey
            (dumpsVal (.plist ((BaseRepository.get_all s.db limit offset).map model_dump)))⟩)) ∧
    (∀ s limit offset, emptyInv s →
      (TemplateService.get_all_templates s true limit offset false false false).1 =
        .ok ⟨"db", [], 0, limit, offset⟩ ∧
      emptyInv (TemplateService.get_all_templates s true limit offset false false false).2) ∧
    (∀ s limit offset n, emptyInv s →
      (TemplateService.get_all_templates (readIter limit offset n s) true limit offset
          false false false).1 =
        .ok ⟨"db", [], 0, limit, offset⟩) := by
  have hmiss : ∀ s v limit offset,
      rget s.redis cacheKey = some v →
      jsonLoads v = some (.plist []) →
      TemplateService.get_all_templates s true limit offset false false false =
        (.ok ⟨"db", BaseRepository.get_all s.db limit offset,
            (BaseRepository.get_all s.db limit offset).length, limit, offset⟩,
          ⟨s.db, rset s.redis cacheKey
            (dumpsVal (.plist ((BaseRepository.get_all s.db limit offset).map model_dump)))⟩) := by
    intro s v limit offset hget hjson
    have hvne : v ≠ [] := by
      intro hv
      rw [hv, jsonLoads_nil] at hjson
      exact Option.noConfusion hjson
    unfold TemplateService.get_all_templates CacheService.get_templates_cache
    rw [hget]
    simp only [if_false, Bool.false_eq_true, if_neg hvne, hjson, if_true]
    have hft : pyTruthy (.plist []) = false := by rfl
    rw [hft]
    simp [CacheService.set_templates_cache]
  have hstep : ∀ s limit offset, emptyInv s →
      (TemplateService.get_all_templates s true limit offset false false false).1 =
        .ok ⟨"db", [], 0, limit, offset⟩ ∧
      emptyInv (TemplateService.get_all_templates s true limit offset false false false).2 := by
    intro s limit offset hinv
    obtain ⟨hdb, hcache⟩ := hinv
    have hpage : BaseRepository.get_all s.db limit offset = [] := by
      rw [hdb]
      simp [BaseRepository.get_all]
    match hget : rget s.redis cacheKey with
    | some v =>
      have hjson := hcache v hget
      rw [hmiss s v limit offset hget hjson]
      refine ⟨by simp [hpage], by simp [hdb], ?_⟩
      intro v2 hget2
      rw [rget_rset] at hget2
      cases hget2
      rw [hpage]
      rfl
    | none =>
      unfold TemplateService.get_all_templates CacheService.get_templates_cache
      rw [hget]
      simp only [if_false, Bool.false_eq_true, if_true, CacheService.set_templates_cache]
      refine ⟨by simp [hpage], by simp [hdb], ?_⟩
      intro v2 hget2
      simp only [if_false, Bool.false_eq_true] at hget2
      rw [rget_rset] at hget2
      cases hget2
      rw [hpage]
      rfl
  refine ⟨hmiss, hstep, ?_⟩
  intro s limit offset n hinv
  induction n generalizing s with
  | zero => exact (hstep s limit offset hinv).1
  | succ n ih =>
    have h2 := (hstep s limit offset hinv).2
    exact ih _ h2

theorem c8_witness :
    rget (St.redis ⟨[], [(cacheKey, pstr "[]")]⟩) cacheKey = some (pstr "[]") ∧
    jsonLoads (pstr "[]") = some (.plist []) ∧
    TemplateService.get_all_templates ⟨[], [(cacheKey, pstr "[]")]⟩ true 100 0
        false false false =
      (.ok ⟨"db", [], 0, 100, 0⟩,
        ⟨[], rset [(cacheKey, pstr "[]")] cacheKey (dumpsVal (.plist []))⟩) ∧
    emptyInv ⟨[], [(cacheKey, pstr "[]")]⟩ ∧
    (TemplateService.get_all_templates (readIter 100 0 3 ⟨[], [(cacheKey, pstr "[]")]⟩)
        true 100 0 false false false).1 = .ok ⟨"db", [], 0, 100, 0⟩ := by
  have h1 : rget (St.redis ⟨[], [(cacheKey, pstr "[]")]⟩) cacheKey = some (pstr "[]") := rfl
  have h2 : jsonLoads (pstr "[]") = some (.plist []) := rfl
  have hinv : emptyInv ⟨[], [(cacheKey, pstr "[]")]⟩ := by
    refine ⟨rfl, ?_⟩
    intro v hv
    have hv2 : v = pstr "[]" := by
      rw [h1] at hv
      exact Option.some.inj hv.symm
    rw [hv2]
    exact h2
  refine ⟨h1, h2, ?_, hinv, ?_⟩
  · exact c8_empty_cached_list_is_miss.1 ⟨[], [(cacheKey, pstr "[]")]⟩ (pstr "[]") 100 0 h1 h2
  · exact c8_empty_cached_list_is_miss.2.2 ⟨[], [(cacheKey, pstr "[]")]⟩ 100 0 3 hinv

theorem jnormList_eq_map (l : List PyObj) : jnormList l = l.map jnorm := by
  induction l with
  | nil => rfl
  | cons x l ih => simp [jnormList, ih]

theorem dumpOkList_map_model_dump {ts : List Template} (h : ∀ t ∈ ts, t.wf) :
    dumpOkList (ts.map model_dump) := by
  induction ts with
  | nil => trivial
  | cons t ts ih =>
    exact ⟨dumpOk_model_dump (h t (by simp)), ih (fun x hx => h x (by simp [hx]))⟩

theorem validateAll_jnorm_map {ts : List Template} (h : ∀ t ∈ ts, t.wf) :
    validateAll ((ts.map model_dump).map jnorm) = some ts := by
  induction ts with
  | nil => rfl
  | cons t ts ih =>
    simp only [List.map_cons, validateAll, model_validate_jnorm_dump (h t (by simp)),
      ih (fun x hx => h x (by simp [hx]))]

/-- C7: writing a list of template snapshots with `set_templates_cache`
stores exactly the JSON rendering (never the legacy delimiter format:
conjunct two shows the stored bytes parse as JSON, so a read never enters
the legacy fallback), and reading it back through `get_templates_cache`
and `model_validate` recovers the snapshots — UUID identifiers and
microsecond timestamps included — without loss. -/
theorem c7_cache_serialization_round_trip (ts : List Template) (redis : Redis)
    (hwf : ∀ t ∈ ts, t.wf) :
    rget (CacheService.set_templates_cache redis cacheKey (ts.map model_dump) false)
        cacheKey = some (dumpsVal (.plist (ts.map model_dump))) ∧
    jsonLoads (dumpsVal (.plist (ts.map model_dump))) =
      some (.plist ((ts.map model_dump).map jnorm)) ∧
    CacheService.get_templates_cache
        (CacheService.set_templates_cache redis cacheKey (ts.map model_dump) false)
        cacheKey false =
      some (.plist ((ts.map model_dump).map jnorm)) ∧
    validateAll ((ts.map model_dump).map jnorm) = some ts := by
  have hok : dumpOk (.plist (ts.map model_dump)) := dumpOkList_map_model_dump hwf
  have h1 : rget (CacheService.set_templates_cache redis cacheKey (ts.map model_dump) false)
      cacheKey = some (dumpsVal (.plist (ts.map model_dump))) := by
    unfold CacheService.set_templates_cache
    simp [rget_rset]
  have h2 : jsonLoads (dumpsVal (.plist (ts.map model_dump))) =
      some (.plist ((ts.map model_dump).map jnorm)) := by
    rw [jsonLoads_dumpsVal hok]
    simp [jnorm, jnormList_eq_map]
  have hne : dumpsVal (.plist (ts.map model_dump)) ≠ [] := by
    simp [dumpsVal]
  refine ⟨h1, h2, ?_, validateAll_jnorm_map hwf⟩
  unfold CacheService.get_templates_cache
  rw [h1]
  simp only [if_false, Bool.false_eq_true, if_neg hne, h2]

theorem c7_witness :
    (∀ t ∈ [tA, tB], t.wf) ∧
    CacheService.get_templates_cache
        (CacheService.set_templates_cache [] cacheKey ([tA, tB].map model_dump) false)
        cacheKey false =
      some (.plist (([tA, tB].map model_dump).map jnorm)) ∧
    validateAll (([tA, tB].map model_dump).map jnorm) = some [tA, tB] := by
  have hwf : ∀ t ∈ [tA, tB], t.wf := by decide
  have h := c7_cache_serialization_round_trip [tA, tB] [] hwf
  exact ⟨hwf, h.2.2.1, h.2.2.2⟩

theorem split2N_length_le (a b : Nat) : ∀ (n : Nat) (s : PyStr), (split2N a b n s).length ≤ n + 1
  | 0, s => by simp [split2N]
  | _ + 1, [] => by simp [split2N]
  | _ + 1, [x] => by simp [split2N]
  | n + 1, x :: y :: rest => by
    unfold split2N
    split
    · have ih := split2N_length_le a b n rest
      simp only [List.length_cons]
      omega
    · have ih := split2N_length_le a b (n + 1) (y :: rest)
      match h2 : split2N a b (n + 1) (y :: rest) with
      | [] => simp
      | s2 :: ss =>
        rw [h2] at ih
        simp only [List.length_cons] at ih ⊢
        omega
termination_by _ s => s.length

/-- The claim's well-formedness condition on a legacy cache value: every
non-empty `"||"`-separated segment splits into at least four
`"::"`-separated fields and its first field parses as a decimal integer. -/
def legacyOkB (v : PyStr) : Bool :=
  ((split2 124 124 v).filter (fun s => s ≠ [])).all
    (fun seg => decide (4 ≤ (split2N 58 58 3 seg).length) &&
      (pyInt ((split2N 58 58 3 seg).headD [])).isSome)

theorem legacySeg_isSome (seg : PyStr) :
    (legacySeg seg).isSome =
      (decide (4 ≤ (split2N 58 58 3 seg).length) &&
        (pyInt ((split2N 58 58 3 seg).headD [])).isSome) := by
  have hle := split2N_length_le 58 58 3 seg
  unfold legacySeg
  match h : split2N 58 58 3 seg with
  | [] => simp
  | [p0] => simp
  | [p0, p1] => simp
  | [p0, p1, p2] => simp
  | [p0, p1, p2, p3] =>
    cases hp : pyInt p0 <;> simp [hp]
  | p0 :: p1 :: p2 :: p3 :: p4 :: rest =>
    rw [h] at hle
    simp only [List.length_cons] at hle
    omega

theorem legacySegsAll_char (l : List PyStr) :
    legacySegsAll l =
      (if l.all (fun seg => (legacySeg seg).isSome) then some (l.filterMap legacySeg)
       else none) := by
  induction l with
  | nil => rfl
  | cons seg l ih =>
    unfold legacySegsAll
    match hs : legacySeg seg with
    | none => simp [hs]
    | some item =>
      rw [ih]
      by_cases hall : l.all (fun seg => (legacySeg seg).isSome) = true
      · simp [hs, hall, List.filterMap_cons]
      · simp [hs, hall]

/-- C10: a cached value that is not valid JSON never raises out of
`get_templates_cache` (the function is total and every `int`/index error
of the legacy loop is absorbed): it returns the legacy-decoded item list
exactly when the value is non-empty and every non-empty `"||"` segment
has at least four `"::"` fields with a decimal-integer first field, and
otherwise — a UUID first field in particular — returns the absent
result, so such values behave as cache misses. -/
theorem c10_invalid_json_legacy_fallback (redis : Redis) (key : String) (v : PyStr)
    (hget : rget redis key = some v) (hjson : jsonLoads v = none) :
    CacheService.get_templates_cache redis key false =
      (if v ≠ [] ∧ legacyOkB v = true
       then some (.plist (((split2 124 124 v).filter (fun s => s ≠ [])).filterMap legacySeg))
       else none) := by
  unfold CacheService.get_templates_cache
  rw [hget]
  by_cases hv : v = []
  · simp [hv]
  · simp only [if_false, Bool.false_eq_true, if_neg hv, hjson]
    unfold legacyDecode
    rw [legacySegsAll_char]
    unfold legacyOkB
    simp only [legacySeg_isSome, hv, ne_eq, not_false_eq_true, true_and]
    split <;> simp_all

theorem c10_witness :
    jsonLoads (pstr "123e4567-e89b-12d3-a456-426614174000::T::DRAFT::2023-01-01") = none ∧
    CacheService.get_templates_cache
      [("k", pstr "123e4567-e89b-12d3-a456-426614174000::T::DRAFT::2023-01-01")] "k" false =
      none ∧
    jsonLoads (pstr "12::T::DRAFT::2023-01-01||") = none ∧
    CacheService.get_templates_cache [("k", pstr "12::T::DRAFT::2023-01-01||")] "k" false =
      some (.plist [.pdict [(kId, .pint 12), (kTitle, .pstrv (pstr "T")),
        (kStatus, .pstrv (pstr "DRAFT")), (kCreated, .pstrv (pstr "2023-01-01"))]]) := by
  have hj1 : jsonLoads (pstr "123e4567-e89b-12d3-a456-426614174000::T::DRAFT::2023-01-01") =
      none := by rfl
  have hj2 : jsonLoads (pstr "12::T::DRAFT::2023-01-01||") = none := by rfl
  have hg1 : rget [("k", pstr "123e4567-e89b-12d3-a456-426614174000::T::DRAFT::2023-01-01")]
      "k" = some (pstr "123e4567-e89b-12d3-a456-426614174000::T::DRAFT::2023-01-01") := rfl
  have hg2 : rget [("k", pstr "12::T::DRAFT::2023-01-01||")] "k" =
      some (pstr "12::T::DRAFT::2023-01-01||") := rfl
  refine ⟨hj1, ?_, hj2, ?_⟩
  · rw [c10_invalid_json_legacy_fallback _ _ _ hg1 hj1]
    rfl
  · rw [c10_invalid_json_legacy_fallback _ _ _ hg2 hj2]
    rfl

/-- C4, refuted as stated: the Entity Repository's `get_all` does not
bound the caller-supplied limit to `[1, 500]` — with `limit = 501` over a
501-row store it returns 501 rows, more than 500 and not clamped. -/
theorem c4_counterexample :
    ¬((BaseRepository.get_all (List.replicate 501 tA) 501 0).length ≤ 500) := by
  simp only [BaseRepository.get_all, List.drop_zero, List.length_take,
    List.length_replicate]
  omega

/-- C4 amended: the repository's own defaults are `limit=100, offset=0`,
but `get_all` itself passes the limit through unclamped (the page length
is `min limit (stored - offset)`, which can exceed 500).  The `[1, 500]`
bound lives in the HTTP router, which rejects an out-of-range limit with
a validation error rather than clamping it, and calls the service with an
in-range limit exactly as supplied. -/
theorem c4_limit_bounds_amended :
    (BaseRepository.get_all_default_limit = 100 ∧ BaseRepository.get_all_default_offset = 0) ∧
    (∀ db limit offset,
      (BaseRepository.get_all db limit offset).length = min limit (db.length - offset)) ∧
    (∀ s limit offset uc gf sf df, limit < 1 ∨ 500 < limit ∨ offset < 0 →
      get_templates s limit offset uc gf sf df = (.error .unprocessable, s)) ∧
    (∀ s (limit offset : Int) uc gf sf df, 1 ≤ limit → limit ≤ 500 → 0 ≤ offset →
      get_templates s limit offset uc gf sf df =
        (match TemplateService.get_all_templates s uc limit.toNat offset.toNat gf sf df with
         | (.ok r, s2) => (.ok r, s2)
         | (.error _, s2) => (.error .serverError, s2))) := by
  refine ⟨⟨rfl, rfl⟩, ?_, ?_, ?_⟩
  · intro db limit offset
    simp [BaseRepository.get_all, List.length_take, List.length_drop]
  · intro s limit offset uc gf sf df h
    unfold get_templates
    rw [if_pos h]
  · intro s limit offset uc gf sf df h1 h2 h3
    unfold get_templates
    rw [if_neg (by omega)]

theorem c4_witness :
    ((501 : Int) < 1 ∨ 500 < (501 : Int) ∨ (0 : Int) < 0) ∧
    get_templates st0 501 0 true false false false = (.error .unprocessable, st0) ∧
    (1 : Int) ≤ 42 ∧ (42 : Int) ≤ 500 ∧ (0 : Int) ≤ 7 ∧
    get_templates st0 42 7 true false false false =
      (match TemplateService.get_all_templates st0 true 42 7 false false false with
       | (.ok r, s2) => (.ok r, s2)
       | (.error _, s2) => (.error .serverError, s2)) := by
  have hrange : (501 : Int) < 1 ∨ 500 < (501 : Int) ∨ (0 : Int) < 0 := by omega
  refine ⟨by omega, ?_, by omega, by omega, by omega, ?_⟩
  · exact c4_limit_bounds_amended.2.2.1 st0 501 0 true false false false hrange
  · exact c4_limit_bounds_amended.2.2.2 st0 42 7 true false false false (by omega) (by omega)
      (by omega)

/-- C5, refuted as stated: `TemplateItem` initializes `created_at` and
`updated_at` by two separate `utcnow()` default-factory reads, so a
successful create whose two clock reads straddle a microsecond boundary
returns a record with `created_at ≠ updated_at`. -/
theorem c5_counterexample :
    (TemplateService.create_template st0 ⟨pstr "T", none, .DRAFT⟩ 1 dt0 dt1 false false).1 =
      .ok ⟨"Template created successfully", ⟨1, pstr "T", none, .DRAFT, dt0, dt1⟩⟩ ∧
    (⟨1, pstr "T", none, .DRAFT, dt0, dt1⟩ : Template).created_at ≠
      (⟨1, pstr "T", none, .DRAFT, dt0, dt1⟩ : Template).updated_at := by
  exact ⟨rfl, by decide⟩

/-- C5 amended: for every valid create input the returned (and stored)
record's title, body and status equal the input's values and its id is
the freshly generated value — distinct from every existing record's id
when the generated id is unused, the guarantee `uuid4` provides — and
`created_at = updated_at` holds whenever the two creation-time clock
reads return the same instant (the code performs two separate reads and
does not otherwise enforce equality). -/
theorem c5_create_fields_amended (s : St) (req : TemplateCreateRequest) (newId : Nat)
    (t : DT) (h : newId ∉ s.db.map Template.id) :
    TemplateService.create_template s req newId t t false false =
      (.ok ⟨"Template created successfully",
          ⟨newId, req.title, req.body, req.status, t, t⟩⟩,
        ⟨s.db ++ [⟨newId, req.title, req.body, req.status, t, t⟩], rdel s.redis cacheKey⟩) ∧
    (∀ t0 ∈ s.db, (⟨newId, req.title, req.body, req.status, t, t⟩ : Template).id ≠ t0.id) ∧
    (⟨newId, req.title, req.body, req.status, t, t⟩ : Template).created_at =
      (⟨newId, req.title, req.body, req.status, t, t⟩ : Template).updated_at := by
  refine ⟨?_, ?_, rfl⟩
  · unfold TemplateService.create_template BaseRepository.create
      CacheService.invalidate_cache
    simp
  · intro t0 ht0 hid
    exact h (List.mem_map.mpr ⟨t0, ht0, hid.symm⟩)

theorem c5_witness :
    (7 ∉ (stA.db.map Template.id)) ∧
    TemplateService.create_template stA ⟨pstr "T", some (pstr "b"), .PUBLISHED⟩ 7 dt2 dt2
        false false =
      (.ok ⟨"Template created successfully",
          ⟨7, pstr "T", some (pstr "b"), .PUBLISHED, dt2, dt2⟩⟩,
        ⟨stA.db ++ [⟨7, pstr "T", some (pstr "b"), .PUBLISHED, dt2, dt2⟩],
          rdel stA.redis cacheKey⟩) := by
  have h : 7 ∉ (stA.db.map Template.id) := by decide
  exact ⟨h, (c5_create_fields_amended stA ⟨pstr "T", some (pstr "b"), .PUBLISHED⟩ 7 dt2 h).1⟩

/-- C6, refuted as stated: an update whose `utcnow()` read returns the
record's current `updated_at` instant (two updates within the same
microsecond) leaves `updated_at` unchanged — it does not strictly
increase. -/
theorem c6_counterexample :
    (TemplateService.update_template stA 1 ⟨some (pstr "B"), none, none⟩ dt0 false false).1 =
      .ok (some ⟨1, pstr "B", none, .DRAFT, dt0, dt0⟩) ∧
    ¬(tA.updated_at.key <
        (⟨1, pstr "B", none, .DRAFT, dt0, dt0⟩ : Template).updated_at.key) := by
  exact ⟨rfl, by decide⟩

theorem get_by_id_map_update {db : List Template} {template_id : Nat} {upd : Template}
    (hid : upd.id = template_id) :
    ∀ {rec : Template}, BaseRepository.get_by_id db template_id = some rec →
    BaseRepository.get_by_id (db.map (fun t => if t.id = template_id then upd else t))
      template_id = some upd := by
  induction db with
  | nil => intro rec h; exact Option.noConfusion h
  | cons t db ih =>
    intro rec h
    unfold BaseRepository.get_by_id at h ⊢
    simp only [List.map_cons]
    by_cases ht : t.id = template_id
    · simp only [if_pos ht, List.find?]
      rw [show (upd.id == template_id) = true from by simp [hid]]
    · simp only [if_neg ht, List.find?]
      rw [show (t.id == template_id) = false from by simp [ht]]
      simp only [List.find?] at h
      rw [show (t.id == template_id) = false from by simp [ht]] at h
      exact ih h

/-- C6 amended: for every partial update of an existing record, every
field absent from the input keeps its previous value in the stored
record (`created_at` included), and `updated_at` is set to the
update-time clock read `now` — so it strictly increases exactly when that
read is later than the record's previous `updated_at`; an update whose
clock read equals it leaves `updated_at` unchanged. -/
theorem c6_partial_update_amended (s : St) (template_id : Nat) (req : TemplateUpdateRequest)
    (now : DT) (rec : Template)
    (hrec : BaseRepository.get_by_id s.db template_id = some rec)
    (hne : ¬(req.title = none ∧ req.body = none ∧ req.status = none)) :
    (TemplateService.update_template s template_id req now false false).1 =
      .ok (some (BaseRepository.applyUpdate rec ⟨req.title, req.body, req.status, now⟩)) ∧
    BaseRepository.get_by_id
        (TemplateService.update_template s template_id req now false false).2.db template_id =
      some (BaseRepository.applyUpdate rec ⟨req.title, req.body, req.status, now⟩) ∧
    (req.title = none →
      (BaseRepository.applyUpdate rec ⟨req.title, req.body, req.status, now⟩).title =
        rec.title) ∧
    (req.body = none →
      (BaseRepository.applyUpdate rec ⟨req.title, req.body, req.status, now⟩).body =
        rec.body) ∧
    (req.status = none →
      (BaseRepository.applyUpdate rec ⟨req.title, req.body, req.status, now⟩).status =
        rec.status) ∧
    (BaseRepository.applyUpdate rec ⟨req.title, req.body, req.status, now⟩).created_at =
      rec.created_at ∧
    (BaseRepository.applyUpdate rec ⟨req.title, req.body, req.status, now⟩).updated_at = now ∧
    (rec.updated_at.key < now.key →
      rec.updated_at.key <
        (BaseRepository.applyUpdate rec ⟨req.title, req.body, req.status, now⟩).updated_at.key) := by
  have hid : rec.id = template_id := by
    have := List.find?_some hrec
    simpa using this
  have hupd : TemplateService.update_template s template_id req now false false =
      (.ok (some (BaseRepository.applyUpdate rec ⟨req.title, req.body, req.status, now⟩)),
        ⟨s.db.map (fun t => if t.id = template_id
            then BaseRepository.applyUpdate rec ⟨req.title, req.body, req.status, now⟩ else t),
          rdel s.redis cacheKey⟩) := by
    unfold TemplateService.update_template
    rw [if_neg hne]
    simp only [Bool.false_eq_true, if_false]
    unfold BaseRepository.update_by_id
    rw [hrec]
    simp [CacheService.invalidate_cache]
  refine ⟨by rw [hupd], ?_, fun h => by simp [BaseRepository.applyUpdate, h],
    fun h => by simp [BaseRepository.applyUpdate, h],
    fun h => by simp [BaseRepository.applyUpdate, h],
    rfl, rfl, fun h => h⟩
  rw [hupd]
  exact get_by_id_map_update (by simp [BaseRepository.applyUpdate, hid]) hrec

theorem c6_witness :
    BaseRepository.get_by_id stA.db 1 = some tA ∧
    tA.updated_at.key < dt2.key ∧
    (TemplateService.update_template stA 1 ⟨none, none, some .PUBLISHED⟩ dt2 false false).1 =
      .ok (some (BaseRepository.applyUpdate tA ⟨none, none, some .PUBLISHED, dt2⟩)) ∧
    tA.updated_at.key <
      (BaseRepository.applyUpdate tA ⟨none, none, some .PUBLISHED, dt2⟩).updated_at.key := by
  have h1 : BaseRepository.get_by_id stA.db 1 = some tA := rfl
  have hne : ¬((⟨none, none, some .PUBLISHED⟩ : TemplateUpdateRequest).title = none ∧
      (⟨none, none, some .PUBLISHED⟩ : TemplateUpdateRequest).body = none ∧
      (⟨none, none, some .PUBLISHED⟩ : TemplateUpdateRequest).status = none) := by
    simp
  have h := c6_partial_update_amended stA 1 ⟨none, none, some .PUBLISHED⟩ dt2 tA h1 hne
  exact ⟨h1, by decide, h.1, h.2.2.2.2.2.2.2 (by decide)⟩

end Backend
